import Mathlib

/-!
# A verification development for `pset1/m61.c` (debugging memory allocator)

The C file keeps a global doubly linked list (`struct list`, global `head`) with one
node per allocation attempt, and wraps `malloc`, `free`, `realloc` and `calloc`.

Embedding:

* a pointer is a `Nat`, the null pointer is `0`;
* the linked list is a Lean `List` of nodes in link order (`head == NULL` is `[]`); the
  `prev`/`next` fields are the position in the list (`prev` is never read by the code);
* `size_t` and `unsigned long long` are `Nat` with an explicit `% 2 ^ 64` wherever the
  C code does arithmetic on them;
* the underlying allocator is external: the value returned by the call `malloc(sz)` is
  an argument `r` of the wrapper that makes the call, and every call to the underlying
  `malloc`/`free`, every `memcpy`/`memset` and every diagnostic line is logged, in
  program order, in the `trace` component of the state;
* the contents of memory are not modelled: `memcpy` and `memset` are logged with their
  arguments; a `memcpy` with a null pointer and a positive length kills the process
  (`Except.error`), any other call is assumed to return;
* the `malloc(sizeof(struct list))` that creates a list node is assumed to succeed
  (the C code dereferences its result unconditionally) and is not logged;
* the `file`/`line` arguments only feed the text of the diagnostics and are left out.
-/

namespace M61

/-! ## Constants (lines 18-28) -/

/-- Memory status `INACTIVE`. -/
def INACTIVE : Int := 0
/-- Memory status `ACTIVE`. -/
def ACTIVE : Int := 1
/-- Memory status `FAILED`. -/
def FAILED : Int := 2

/-- Return status `SUCCESS` of the list operations. -/
def SUCCESS : Int := 1
/-- Return status `FAIL` (unused by the code). -/
def FAIL : Int := 0
/-- Return status `INVLDFREE`. -/
def INVLDFREE : Int := -1
/-- Return status `NOTINHEAP`. -/
def NOTINHEAP : Int := -2
/-- Return status `NOTALLOC`. -/
def NOTALLOC : Int := -3

/-- Width of `size_t` and of `unsigned long long`: values live in `[0, 2 ^ 64)`. -/
def SIZE_MOD : Nat := 2 ^ 64

/-! ## Data model (lines 30-39) -/

/-- A node of `struct list`: `address`, `status`, `size`. -/
structure list where
  address : Nat
  status : Int
  size : Nat
deriving DecidableEq, Repr

/-- The three diagnostics `m61_free` can print (lines 66, 69, 72). -/
inductive Msg where
  | notInHeap
  | invalidFree
  | notAllocated
deriving DecidableEq, Repr

/-- Externally visible actions, logged in program order. -/
inductive Event where
  | malloc (sz : Nat) (ret : Nat)
  | free (ptr : Nat)
  | memcpy (dst : Nat) (src : Nat) (n : Nat)
  | memset (ptr : Nat) (c : Nat) (n : Nat)
  | fprintf (msg : Msg) (ptr : Nat)
deriving DecidableEq, Repr

/-- Program state: the global `head` list and the log of external actions. -/
structure State where
  head : List list
  trace : List Event
deriving DecidableEq, Repr

/-- The state at program start: `head = NULL`, nothing logged. -/
def State.init : State := { head := [], trace := [] }

/-- The record `struct m61_statistics` (quoted in the comment at lines 134-141). -/
structure m61_statistics where
  nactive : Nat
  active_size : Nat
  ntotal : Nat
  total_size : Nat
  nfail : Nat
  fail_size : Nat
deriving DecidableEq, Repr

/-! ## `m61_add2list` (lines 186-219) -/

/-- The walk `while (temp->next != NULL) temp = temp->next;` followed by linking a new
tail after the last node (lines 193-204); `temp` is the current node, the second
argument is what follows it. -/
def add2list_walk (tail : list) : list → List list → List list
  | temp, [] => [temp, tail]
  | temp, nxt :: rest => temp :: add2list_walk tail nxt rest

/-- Function `m61_add2list(ptr, sz, status)`: returns `SUCCESS` and the new list. -/
def m61_add2list (ptr sz : Nat) (status : Int) : List list → Int × List list
  | [] => (SUCCESS, [{ address := ptr, status := status, size := sz }])
  | h :: t => (SUCCESS, add2list_walk { address := ptr, status := status, size := sz } h t)

/-! ## `m61_removefromlist` (lines 226-263) -/

/-- Lines 240-255: the decision taken at the node `temp` where the walk stopped. -/
def remove_at (ptr : Nat) (temp : list) : Int × list :=
  if temp.address = ptr then
    if temp.status = ACTIVE then
      (SUCCESS, { temp with status := INACTIVE, address := 0 })
    else
      (INVLDFREE, temp)
  else
    (NOTALLOC, temp)

/-- Lines 232-237 followed by lines 240-255: walk while `temp->next != NULL`, leaving the
loop early at a node whose address is `ptr`; then decide at the node reached. -/
def remove_walk (ptr : Nat) : list → List list → Int × List list
  | temp, [] => ((remove_at ptr temp).1, [(remove_at ptr temp).2])
  | temp, nxt :: rest =>
    if temp.address = ptr then
      ((remove_at ptr temp).1, (remove_at ptr temp).2 :: nxt :: rest)
    else
      ((remove_walk ptr nxt rest).1, temp :: (remove_walk ptr nxt rest).2)

/-- Function `m61_removefromlist(ptr)`: the returned status and the list afterwards. -/
def m61_removefromlist (ptr : Nat) : List list → Int × List list
  | [] => (NOTINHEAP, [])
  | h :: t => remove_walk ptr h t

/-! ## The wrappers (lines 41-115) -/

/-- Append one entry to the log. -/
def State.log (s : State) (e : Event) : State := { s with trace := s.trace ++ [e] }

/-- Function `m61_malloc(sz)`, where `r` is what the underlying `malloc(sz)` returns. -/
def m61_malloc (sz r : Nat) (s : State) : Nat × State :=
  let s1 := s.log (Event.malloc sz r)
  if r ≠ 0 then
    (r, { s1 with head := (m61_add2list r sz ACTIVE s1.head).2 })
  else
    (r, { s1 with head := (m61_add2list r sz FAILED s1.head).2 })

/-- The diagnostic printed for a return status of `m61_removefromlist` other than
`SUCCESS` (the three `if`s of lines 65-72); nothing is printed for any other value. -/
def free_diag (rmstatus : Int) (ptr : Nat) : List Event :=
  (if rmstatus = NOTINHEAP then [Event.fprintf Msg.notInHeap ptr] else []) ++
  (if rmstatus = INVLDFREE then [Event.fprintf Msg.invalidFree ptr] else []) ++
  (if rmstatus = NOTALLOC then [Event.fprintf Msg.notAllocated ptr] else [])

/-- Function `m61_free(ptr)`. -/
def m61_free (ptr : Nat) (s : State) : State :=
  let rm := m61_removefromlist ptr s.head
  if rm.1 = SUCCESS then
    { head := rm.2, trace := s.trace ++ [Event.free ptr] }
  else
    { head := rm.2, trace := s.trace ++ free_diag rm.1 ptr }

/-- The call `memcpy(dst, src, n)` at line 97 with a null `dst` or a null `src` and
`n > 0` reads or writes at address 0: the process is killed inside the call and nothing
after it runs. -/
def memcpy_faults (dst src n : Nat) : Prop := (dst = 0 ∨ src = 0) ∧ n ≠ 0

instance memcpy_faults_decidable (dst src n : Nat) : Decidable (memcpy_faults dst src n) :=
  inferInstanceAs (Decidable ((dst = 0 ∨ src = 0) ∧ n ≠ 0))

deriving instance DecidableEq for Except

/-- One pass through the body of the loop of `m61_realloc` (lines 95-99) with `temp`
the node at position `i`. The result is `Except.ok` with the state after the body, or
`Except.error` with the state in which the process was killed by the `memcpy` (the call
is logged, `m61_free` at line 98 is not reached). -/
def realloc_body (new_ptr ptr : Nat) (temp : list) (s : State) : Except State State :=
  if temp.address = ptr then
    if memcpy_faults new_ptr ptr temp.size then
      Except.error (s.log (Event.memcpy new_ptr ptr temp.size))
    else
      Except.ok (m61_free ptr (s.log (Event.memcpy new_ptr ptr temp.size)))
  else
    Except.ok s

/-- The loop of `m61_realloc` (lines 92-103): `temp` is the node at position `i`; the
loop runs while `temp->next != NULL`, that is while position `i + 1` exists, and ends at
once when the body is killed. The first argument bounds the number of iterations;
`m61_realloc` passes the number of nodes, which the loop never reaches because no node
is linked or unlinked inside it. -/
def realloc_loop (new_ptr ptr : Nat) : Nat → Nat → State → Except State State
  | 0, _, s => Except.ok s
  | fuel + 1, i, s =>
    match s.head[i]?, s.head[i + 1]? with
    | some temp, some _ =>
      match realloc_body new_ptr ptr temp s with
      | Except.ok s1 => realloc_loop new_ptr ptr fuel (i + 1) s1
      | Except.error s1 => Except.error s1
    | _, _ => Except.ok s

/-- Function `m61_realloc(ptr, sz)`, where `r` is what the underlying `malloc(sz)`
returns if it is called: `Except.ok` with the returned pointer and the state at the
return, or `Except.error` with the state in which the process was killed. -/
def m61_realloc (ptr sz r : Nat) (s : State) : Except State (Nat × State) :=
  if sz ≠ 0 then
    let m := m61_malloc sz r s
    if m.2.head ≠ [] then
      match realloc_loop m.1 ptr m.2.head.length 0 m.2 with
      | Except.ok s1 => Except.ok (m.1, s1)
      | Except.error s1 => Except.error s1
    else
      Except.ok (m.1, m.2)
  else
    Except.ok (0, m61_free ptr s)

/-- The state in which a call of `m61_realloc` ended: the state at its return, or the
state in which the process was killed. -/
def realloc_state : Except State (Nat × State) → State
  | Except.ok (_, s) => s
  | Except.error s => s

/-- Function `m61_calloc(nmemb, sz)`, where `r` is what the underlying `malloc` returns;
`nmemb * sz` is a `size_t` product. -/
def m61_calloc (nmemb sz r : Nat) (s : State) : Nat × State :=
  let m := m61_malloc (nmemb * sz % SIZE_MOD) r s
  if m.1 ≠ 0 then
    (m.1, m.2.log (Event.memset m.1 0 (nmemb * sz % SIZE_MOD)))
  else
    (m.1, m.2)

/-! ## `m61_getstatistics` (lines 117-167) -/

/-- The all-zero statistics written at lines 120-125. -/
def stats_zero : m61_statistics :=
  { nactive := 0, active_size := 0, ntotal := 0, total_size := 0, nfail := 0, fail_size := 0 }

/-- Lines 143-149: the update for a node with `status == ACTIVE`. -/
def stats_active (temp : list) (st : m61_statistics) : m61_statistics :=
  if temp.status = ACTIVE then
    { st with
      nactive := (st.nactive + 1) % SIZE_MOD,
      total_size := (st.total_size + temp.size) % SIZE_MOD,
      active_size := (st.active_size + temp.size) % SIZE_MOD,
      ntotal := (st.ntotal + 1) % SIZE_MOD }
  else st

/-- Lines 151-155: the update for a node with `status == INACTIVE`. -/
def stats_inactive (temp : list) (st : m61_statistics) : m61_statistics :=
  if temp.status = INACTIVE then
    { st with
      total_size := (st.total_size + temp.size) % SIZE_MOD,
      ntotal := (st.ntotal + 1) % SIZE_MOD }
  else st

/-- Lines 157-161: the update for a node with `status == FAILED`. -/
def stats_failed (temp : list) (st : m61_statistics) : m61_statistics :=
  if temp.status = FAILED then
    { st with
      nfail := (st.nfail + 1) % SIZE_MOD,
      fail_size := (st.fail_size + temp.size) % SIZE_MOD }
  else st

/-- The body of the `do ... while` loop (lines 143-161): the three `if`s in sequence. -/
def stats_step (st : m61_statistics) (temp : list) : m61_statistics :=
  stats_failed temp (stats_inactive temp (stats_active temp st))

/-- The `do ... while (temp != NULL)` loop over the nodes from `temp` on. -/
def stats_loop : List list → m61_statistics → m61_statistics
  | [], st => st
  | temp :: rest, st => stats_loop rest (stats_step st temp)

/-- Function `m61_getstatistics(stats)`: the value written to `*stats`. -/
def m61_getstatistics (head : List list) : m61_statistics :=
  stats_loop head stats_zero

/-! ## Sequences of wrapper calls -/

/-- A call of one of the four wrappers; `r` is the result of the underlying `malloc`
for the (at most one) call the wrapper makes. -/
inductive Op where
  | malloc (sz r : Nat)
  | free (ptr : Nat)
  | realloc (ptr sz r : Nat)
  | calloc (nmemb sz r : Nat)
deriving DecidableEq, Repr

/-- The state after one wrapper call. For a call of `m61_realloc` that is killed this is
the state at that point; after it no further call happens in a real execution, so the
states `run` and `Reachable` make from it are extra states, never missing ones. -/
def step (s : State) : Op → State
  | Op.malloc sz r => (m61_malloc sz r s).2
  | Op.free ptr => m61_free ptr s
  | Op.realloc ptr sz r => realloc_state (m61_realloc ptr sz r s)
  | Op.calloc nmemb sz r => (m61_calloc nmemb sz r s).2

/-- The state after a sequence of wrapper calls. -/
def run (s : State) (ops : List Op) : State := ops.foldl step s

/-- States reachable from the start state by wrapper calls, whatever the underlying
allocator returns. -/
inductive Reachable : State → Prop where
  | init : Reachable State.init
  | step (s : State) (op : Op) : Reachable s → Reachable (step s op)

/-! ## The underlying allocator as seen through the log -/

/-- The values returned so far by the underlying `malloc` (null results included), in
call order. -/
def returned : List Event → List Nat
  | [] => []
  | Event.malloc _ r :: es => r :: returned es
  | _ :: es => returned es

/-- Effect of one logged action on the set of blocks of the underlying allocator that
are allocated and not yet freed. -/
def live_step (acc : List Nat) : Event → List Nat
  | Event.malloc _ r => if r ≠ 0 then r :: acc else acc
  | Event.free p => acc.filter (fun a => a ≠ p)
  | _ => acc

/-- The blocks of the underlying allocator that are allocated and not yet freed after
the logged calls. -/
def live (tr : List Event) : List Nat := tr.foldl live_step []

/-- A condition `Q s r` on the result `r` of the underlying `malloc` called in state
`s`, imposed on the call a wrapper makes (`m61_realloc` calls `malloc` only when
`sz != 0`, and does so before anything else). -/
def OpCalls (Q : State → Nat → Prop) (s : State) : Op → Prop
  | Op.malloc _ r => Q s r
  | Op.free _ => True
  | Op.realloc _ sz r => sz ≠ 0 → Q s r
  | Op.calloc _ _ r => Q s r

/-- The allocator contract: the underlying `malloc` never returns a block that is
currently allocated and not yet freed. -/
def AllocOk (s : State) (op : Op) : Prop :=
  OpCalls (fun s r => r ∉ live s.trace) s op

/-- States reachable from the start state by wrapper calls when the underlying
allocator respects `AllocOk`. -/
inductive ReachableOk : State → Prop where
  | init : ReachableOk State.init
  | step (s : State) (op : Op) : ReachableOk s → AllocOk s op → ReachableOk (step s op)

/-- Shape of the nodes the wrappers create: an `ACTIVE` node holds a non-null address
that the allocator returned, an `INACTIVE` node holds the null address, a `FAILED` node
holds the null address and the allocator did return null. -/
def NodeInv (tr : List Event) (n : list) : Prop :=
  (n.status = ACTIVE ∧ n.address ≠ 0 ∧ n.address ∈ returned tr) ∨
  (n.status = INACTIVE ∧ n.address = 0) ∨
  (n.status = FAILED ∧ n.address = 0 ∧ 0 ∈ returned tr)

/-- Every node of the state has the shape `NodeInv`. -/
def StateInv (s : State) : Prop := ∀ n ∈ s.head, NodeInv s.trace n

/-- Node `n` at position `i` is the first node of `l` whose address is `ptr`. -/
def FirstAt (ptr : Nat) (l : List list) (i : Nat) (n : list) : Prop :=
  l[i]? = some n ∧ n.address = ptr ∧ ∀ j m, j < i → l[j]? = some m → m.address ≠ ptr

/-- The node written by a successful `m61_removefromlist` (lines 244-245). -/
def released (n : list) : list := { n with status := INACTIVE, address := 0 }

/-! ## Reference definition of the statistics -/

/-- Number of nodes whose status satisfies `P`. -/
def count_status (P : Int → Bool) (head : List list) : Nat :=
  (head.filter (fun n => P n.status)).length

/-- Sum of the sizes of the nodes whose status satisfies `P`. -/
def bytes_status (P : Int → Bool) (head : List list) : Nat :=
  ((head.filter (fun n => P n.status)).map (fun n => n.size)).sum

/-- Reference statistics, written from the specification: `nactive`/`active_size`
count the `ACTIVE` records and their bytes, `ntotal`/`total_size` the records that are
`ACTIVE` or `INACTIVE` (released), `nfail`/`fail_size` the `FAILED` records; byte sums
are taken in unsigned 64-bit arithmetic. -/
def statistics_spec (head : List list) : m61_statistics :=
  { nactive := count_status (fun st => st = ACTIVE) head,
    active_size := bytes_status (fun st => st = ACTIVE) head % SIZE_MOD,
    ntotal := count_status (fun st => st = ACTIVE || st = INACTIVE) head,
    total_size := bytes_status (fun st => st = ACTIVE || st = INACTIVE) head % SIZE_MOD,
    nfail := count_status (fun st => st = FAILED) head,
    fail_size := bytes_status (fun st => st = FAILED) head % SIZE_MOD }

/-- All six counters are values of `unsigned long long`. -/
def stats_bounded (st : m61_statistics) : Prop :=
  st.nactive < SIZE_MOD ∧ st.active_size < SIZE_MOD ∧ st.ntotal < SIZE_MOD ∧
  st.total_size < SIZE_MOD ∧ st.nfail < SIZE_MOD ∧ st.fail_size < SIZE_MOD

/-! ## Relations between registries and invariants of histories -/

/-- The history relation between an earlier registry `old` and a later one `new`: every
node of `old` is still at its position in `new` with the same size, and its status is
unchanged or went from `ACTIVE` to `INACTIVE`. -/
def Evolves (old new : List list) : Prop :=
  ∀ (i : Nat) (n : list), old[i]? = some n →
    ∃ m : list, new[i]? = some m ∧ m.size = n.size ∧
      (m.status = n.status ∨ (n.status = ACTIVE ∧ m.status = INACTIVE))

/-- No two distinct positions of the registry hold `ACTIVE` nodes with the same
address. -/
def UniqueActive (l : List list) : Prop :=
  ∀ (i j : Nat) (a b : list), i ≠ j → l[i]? = some a → l[j]? = some b →
    a.status = ACTIVE → b.status = ACTIVE → a.address ≠ b.address

/-- Every `ACTIVE` node of the state holds a block that the underlying allocator
considers allocated. -/
def ActiveLive (s : State) : Prop :=
  ∀ n ∈ s.head, n.status = ACTIVE → n.address ∈ live s.trace

/-! ## `m61_printleakreport` (lines 180-183) -/

/-- Function `m61_printleakreport()`: the report lines it prints, each an
(address, size) pair. The body of the C function is empty (`// Your code here.`), so it
prints nothing whatever the registry holds. -/
def m61_printleakreport (_head : List list) : List (Nat × Nat) := []

/-- Reference leak report, written from the specification: one entry (address, size)
for each record with status `ACTIVE`, in creation order. -/
def leak_report_spec (head : List list) : List (Nat × Nat) :=
  (head.filter (fun n => n.status = ACTIVE)).map (fun n => (n.address, n.size))

/-! ## Basic facts about the list operations -/

theorem add2list_walk_eq (tail temp : list) (rest : List list) :
    add2list_walk tail temp rest = (temp :: rest) ++ [tail] := by
  induction rest generalizing temp with
  | nil => rfl
  | cons x xs ih => simp [add2list_walk, ih]

theorem m61_add2list_eq (ptr sz : Nat) (status : Int) (l : List list) :
    m61_add2list ptr sz status l
      = (SUCCESS, l ++ [{ address := ptr, status := status, size := sz }]) := by
  cases l with
  | nil => rfl
  | cons h t => simp [m61_add2list, add2list_walk_eq]

theorem remove_walk_cases (ptr : Nat) (temp : list) (rest : List list) :
    ((∀ n ∈ temp :: rest, n.address ≠ ptr) ∧
        remove_walk ptr temp rest = (NOTALLOC, temp :: rest)) ∨
    (∃ i n, FirstAt ptr (temp :: rest) i n ∧ n.status ≠ ACTIVE ∧
        remove_walk ptr temp rest = (INVLDFREE, temp :: rest)) ∨
    (∃ i n, FirstAt ptr (temp :: rest) i n ∧ n.status = ACTIVE ∧
        remove_walk ptr temp rest = (SUCCESS, (temp :: rest).set i (released n))) := by
  induction rest generalizing temp with
  | nil =>
    by_cases ha : temp.address = ptr
    · by_cases hs : temp.status = ACTIVE
      · right; right
        refine ⟨0, temp, ⟨by simp, ha, by intro j m hj; omega⟩, hs, ?_⟩
        simp [remove_walk, remove_at, ha, hs, released]
      · right; left
        refine ⟨0, temp, ⟨by simp, ha, by intro j m hj; omega⟩, hs, ?_⟩
        simp [remove_walk, remove_at, ha, hs]
    · left
      refine ⟨by simpa using ha, ?_⟩
      simp [remove_walk, remove_at, ha]
  | cons x xs ih =>
    by_cases ha : temp.address = ptr
    · by_cases hs : temp.status = ACTIVE
      · right; right
        refine ⟨0, temp, ⟨by simp, ha, by intro j m hj; omega⟩, hs, ?_⟩
        simp [remove_walk, remove_at, ha, hs, released]
      · right; left
        refine ⟨0, temp, ⟨by simp, ha, by intro j m hj; omega⟩, hs, ?_⟩
        simp [remove_walk, remove_at, ha, hs]
    · have lift : ∀ i n, FirstAt ptr (x :: xs) i n → FirstAt ptr (temp :: x :: xs) (i + 1) n := by
        intro i n h
        refine ⟨by simpa using h.1, h.2.1, ?_⟩
        intro j m hj hm
        cases j with
        | zero =>
          simp at hm
          subst hm
          exact ha
        | succ k => exact h.2.2 k m (by omega) (by simpa using hm)
      rcases ih x with h | ⟨i, n, hf, hs, h⟩ | ⟨i, n, hf, hs, h⟩
      · left
        refine ⟨?_, ?_⟩
        · intro n hn
          rcases List.mem_cons.1 hn with rfl | hn
          · exact ha
          · exact h.1 n hn
        · simp [remove_walk, ha, h.2]
      · right; left
        exact ⟨i + 1, n, lift i n hf, hs, by simp [remove_walk, ha, h]⟩
      · right; right
        exact ⟨i + 1, n, lift i n hf, hs, by simp [remove_walk, ha, h]⟩

/-- The four outcomes of `m61_removefromlist`, each with its condition on the list. -/
theorem m61_removefromlist_cases (ptr : Nat) (l : List list) :
    (l = [] ∧ m61_removefromlist ptr l = (NOTINHEAP, l)) ∨
    (l ≠ [] ∧ (∀ n ∈ l, n.address ≠ ptr) ∧ m61_removefromlist ptr l = (NOTALLOC, l)) ∨
    (∃ i n, FirstAt ptr l i n ∧ n.status ≠ ACTIVE ∧
        m61_removefromlist ptr l = (INVLDFREE, l)) ∨
    (∃ i n, FirstAt ptr l i n ∧ n.status = ACTIVE ∧
        m61_removefromlist ptr l = (SUCCESS, l.set i (released n))) := by
  cases l with
  | nil => left; exact ⟨rfl, rfl⟩
  | cons h t =>
    right
    rcases remove_walk_cases ptr h t with h1 | h2 | h3
    · left; exact ⟨by simp, h1.1, h1.2⟩
    · right; left; exact h2
    · right; right; exact h3

/-! ## The wrappers as compositions of primitive steps -/

theorem m61_malloc_eq (sz r : Nat) (s : State) :
    m61_malloc sz r s
      = (r, { head := s.head ++ [{ address := r, status := if r ≠ 0 then ACTIVE else FAILED,
                                   size := sz }],
              trace := s.trace ++ [Event.malloc sz r] }) := by
  by_cases hr : r = 0 <;> simp [m61_malloc, State.log, m61_add2list_eq, hr]

theorem m61_free_trace (ptr : Nat) (s : State) :
    (m61_free ptr s).trace = s.trace ++
      (if (m61_removefromlist ptr s.head).1 = SUCCESS then [Event.free ptr]
       else if (m61_removefromlist ptr s.head).1 = NOTINHEAP then
         [Event.fprintf Msg.notInHeap ptr]
       else if (m61_removefromlist ptr s.head).1 = INVLDFREE then
         [Event.fprintf Msg.invalidFree ptr]
       else [Event.fprintf Msg.notAllocated ptr]) := by
  rcases m61_removefromlist_cases ptr s.head with h | h | ⟨i, n, _, _, h⟩ | ⟨i, n, _, _, h⟩
  · simp [m61_free, h.2, free_diag, NOTINHEAP, SUCCESS, INVLDFREE, NOTALLOC]
  · simp [m61_free, h.2.2, free_diag, NOTINHEAP, SUCCESS, INVLDFREE, NOTALLOC]
  · simp [m61_free, h, free_diag, NOTINHEAP, SUCCESS, INVLDFREE, NOTALLOC]
  · simp [m61_free, h, free_diag, NOTINHEAP, SUCCESS, INVLDFREE, NOTALLOC]

theorem m61_free_head (ptr : Nat) (s : State) :
    (m61_free ptr s).head = (m61_removefromlist ptr s.head).2 := by
  simp only [m61_free]
  split <;> rfl

/-- Induction principle over the primitive steps a wrapper call is made of: the call to
`m61_malloc` (whose allocator result satisfies `Q`), calls to `m61_free`, and the logging
of a `memcpy` or `memset`. -/
theorem step_preserves (P : State → Prop) (Q : State → Nat → Prop)
    (hmalloc : ∀ s sz r, Q s r → P s → P (m61_malloc sz r s).2)
    (hfree : ∀ s ptr, P s → P (m61_free ptr s))
    (hcpy : ∀ s dst src n, P s → P (s.log (Event.memcpy dst src n)))
    (hset : ∀ s ptr c n, P s → P (s.log (Event.memset ptr c n)))
    (s : State) (op : Op) (hop : OpCalls Q s op) (hs : P s) : P (step s op) := by
  have hbody : ∀ new_ptr ptr temp s, P s → ∀ t,
      (realloc_body new_ptr ptr temp s = Except.ok t ∨
        realloc_body new_ptr ptr temp s = Except.error t) → P t := by
    intro new_ptr ptr temp s hs t ht
    unfold realloc_body at ht
    split at ht
    · split at ht
      · rcases ht with ht | ht
        · cases ht
        · cases ht
          exact hcpy _ _ _ _ hs
      · rcases ht with ht | ht
        · cases ht
          exact hfree _ _ (hcpy _ _ _ _ hs)
        · cases ht
    · rcases ht with ht | ht
      · cases ht
        exact hs
      · cases ht
  have hloop : ∀ new_ptr ptr fuel i s, P s → ∀ t,
      (realloc_loop new_ptr ptr fuel i s = Except.ok t ∨
        realloc_loop new_ptr ptr fuel i s = Except.error t) → P t := by
    intro new_ptr ptr fuel
    induction fuel with
    | zero =>
      intro i s hs t ht
      simp only [realloc_loop] at ht
      rcases ht with ht | ht
      · cases ht
        exact hs
      · cases ht
    | succ k ih =>
      intro i s hs t ht
      rw [realloc_loop] at ht
      split at ht
      · rename_i temp nxt _ _
        cases hb : realloc_body new_ptr ptr temp s with
        | ok s1 =>
          rw [hb] at ht
          exact ih (i + 1) s1 (hbody new_ptr ptr temp s hs s1 (Or.inl hb)) t ht
        | error s1 =>
          rw [hb] at ht
          have hp := hbody new_ptr ptr temp s hs s1 (Or.inr hb)
          rcases ht with ht | ht
          · cases ht
          · cases ht
            exact hp
      · rcases ht with ht | ht
        · cases ht
          exact hs
        · cases ht
  cases op with
  | malloc sz r => exact hmalloc s sz r hop hs
  | free ptr => exact hfree s ptr hs
  | realloc ptr sz r =>
    show P (realloc_state (m61_realloc ptr sz r s))
    unfold m61_realloc
    by_cases hsz : sz = 0
    · simpa [hsz, realloc_state] using hfree s ptr hs
    · simp only [ne_eq, hsz, not_false_eq_true, if_true]
      have hm := hmalloc s sz r (hop hsz) hs
      split
      · cases hl : realloc_loop (m61_malloc sz r s).1 ptr (m61_malloc sz r s).2.head.length 0
            (m61_malloc sz r s).2 with
        | ok s1 => exact hloop _ _ _ _ _ hm s1 (Or.inl hl)
        | error s1 => exact hloop _ _ _ _ _ hm s1 (Or.inr hl)
      · exact hm
  | calloc nmemb sz r =>
    show P (m61_calloc nmemb sz r s).2
    unfold m61_calloc
    simp only
    split
    · exact hset _ _ _ _ (hmalloc s _ r hop hs)
    · exact hmalloc s _ r hop hs

/-! ## The loop of `m61_realloc` leaves by its guard -/

theorem m61_free_length (ptr : Nat) (s : State) :
    (m61_free ptr s).head.length = s.head.length := by
  rw [m61_free_head]
  rcases m61_removefromlist_cases ptr s.head with h | h | ⟨i, n, _, _, h⟩ | ⟨i, n, _, _, h⟩
  · rw [h.2]
  · rw [h.2.2]
  · rw [h]
  · rw [h]; simp

theorem realloc_body_length (new_ptr ptr : Nat) (temp : list) (s t : State)
    (h : realloc_body new_ptr ptr temp s = Except.ok t) :
    t.head.length = s.head.length := by
  unfold realloc_body at h
  split at h
  · split at h
    · cases h
    · cases h
      rw [m61_free_length]; rfl
  · cases h; rfl

/-- Once the bound covers the nodes after position `i`, a larger bound changes nothing:
the loop has stopped because `temp->next == NULL` or because the process was killed. -/
theorem realloc_loop_fuel (new_ptr ptr : Nat) (fuel i : Nat) (s : State)
    (h : s.head.length ≤ fuel + i + 1) :
    realloc_loop new_ptr ptr (fuel + 1) i s = realloc_loop new_ptr ptr fuel i s := by
  induction fuel generalizing i s with
  | zero =>
    have hnone : s.head[i + 1]? = none := List.getElem?_eq_none_iff.2 (by omega)
    simp only [realloc_loop, hnone]
    split
    · rename_i heq; cases heq
    · rfl
  | succ k ih =>
    rw [realloc_loop, realloc_loop]
    split
    · rename_i temp nxt _ _
      cases hb : realloc_body new_ptr ptr temp s with
      | ok s1 =>
        simp only
        apply ih
        rw [realloc_body_length new_ptr ptr temp s s1 hb]
        omega
      | error s1 => rfl
    · rfl

/-- The bound `m61_realloc` passes (the number of nodes) is never exhausted. -/
theorem realloc_loop_enough (new_ptr ptr : Nat) (extra : Nat) (s : State) :
    realloc_loop new_ptr ptr (s.head.length + extra) 0 s
      = realloc_loop new_ptr ptr s.head.length 0 s := by
  induction extra with
  | zero => rfl
  | succ k ih =>
    rw [← ih]
    exact realloc_loop_fuel new_ptr ptr (s.head.length + k) 0 s (by omega)

/-! ## The node-shape invariant of reachable states -/

theorem returned_append (a b : List Event) : returned (a ++ b) = returned a ++ returned b := by
  induction a with
  | nil => rfl
  | cons e es ih => cases e <;> simp [returned, ih]

theorem NodeInv_mono (tr ex : List Event) (n : list) (h : NodeInv tr n) :
    NodeInv (tr ++ ex) n := by
  rcases h with ⟨h1, h2, h3⟩ | h | ⟨h1, h2, h3⟩
  · left; exact ⟨h1, h2, by simp [returned_append, h3]⟩
  · right; left; exact h
  · right; right; exact ⟨h1, h2, by simp [returned_append, h3]⟩

theorem NodeInv_released (tr : List Event) (n : list) : NodeInv tr (released n) := by
  right; left; exact ⟨rfl, rfl⟩

theorem m61_free_trace_append (ptr : Nat) (s : State) :
    ∃ ex, (m61_free ptr s).trace = s.trace ++ ex := ⟨_, m61_free_trace ptr s⟩

theorem m61_free_head_cases (ptr : Nat) (s : State) :
    (m61_free ptr s).head = s.head ∨
    ∃ i n, FirstAt ptr s.head i n ∧ n.status = ACTIVE ∧
      (m61_free ptr s).head = s.head.set i (released n) := by
  rw [m61_free_head]
  rcases m61_removefromlist_cases ptr s.head with h | h | ⟨i, n, _, _, h⟩ | ⟨i, n, hf, hs, h⟩
  · left; rw [h.2]
  · left; rw [h.2.2]
  · left; rw [h]
  · right; exact ⟨i, n, hf, hs, by rw [h]⟩

theorem StateInv_step (s : State) (op : Op) (hs : StateInv s) : StateInv (step s op) := by
  refine step_preserves StateInv (fun _ _ => True) ?_ ?_ ?_ ?_ s op ?_ hs
  · intro s sz r _ hs n hn
    rw [m61_malloc_eq] at hn
    simp only [List.mem_append, List.mem_singleton] at hn
    rw [m61_malloc_eq]
    rcases hn with hn | rfl
    · exact NodeInv_mono _ _ _ (hs n hn)
    · by_cases hr : r = 0
      · right; right
        simp [hr, returned_append, returned]
      · left
        simp [hr, returned_append, returned]
  · intro s ptr hs n hn
    obtain ⟨ex, hex⟩ := m61_free_trace_append ptr s
    rw [hex]
    rcases m61_free_head_cases ptr s with h | ⟨i, m, _, _, h⟩
    · rw [h] at hn
      exact NodeInv_mono _ _ _ (hs n hn)
    · rw [h] at hn
      rcases List.mem_or_eq_of_mem_set hn with hn | rfl
      · exact NodeInv_mono _ _ _ (hs n hn)
      · exact NodeInv_released _ _
  · intro s dst src k hs n hn
    exact NodeInv_mono _ _ _ (hs n hn)
  · intro s ptr c k hs n hn
    exact NodeInv_mono _ _ _ (hs n hn)
  · cases op <;> simp [OpCalls]

theorem Reachable_inv (s : State) (hs : Reachable s) : StateInv s := by
  induction hs with
  | init => intro n hn; simp [State.init] at hn
  | step s op _ ih => exact StateInv_step s op ih

theorem Reachable_run (s : State) (ops : List Op) (hs : Reachable s) :
    Reachable (run s ops) := by
  induction ops generalizing s with
  | nil => exact hs
  | cons op ops ih => exact ih (step s op) (Reachable.step s op hs)

/-! ## Claims about release (`m61_removefromlist`, `m61_free`) -/

/-- C1 (double free, the code evaluated): starting from the empty registry, for every
non-null handle `h + 1` returned by `m61_malloc(10)`, the first release is classified
`SUCCESS`, but the second release of the same handle is classified `NOTALLOC` (the
"not allocated" diagnostic is printed), not `INVLDFREE`, because the first release
overwrote the address of the node with null; the statistics afterwards are
`nactive = 0` and `ntotal = 1`. -/
theorem C1_double_free_classified_notalloc (h : Nat) :
    (m61_removefromlist (h + 1) (run State.init [Op.malloc 10 (h + 1)]).head).1 = SUCCESS ∧
    (m61_removefromlist (h + 1)
        (run State.init [Op.malloc 10 (h + 1), Op.free (h + 1)]).head).1 = NOTALLOC ∧
    NOTALLOC ≠ INVLDFREE ∧
    run State.init [Op.malloc 10 (h + 1), Op.free (h + 1), Op.free (h + 1)]
      = { head := [{ address := 0, status := INACTIVE, size := 10 }],
          trace := [Event.malloc 10 (h + 1), Event.free (h + 1),
                    Event.fprintf Msg.notAllocated (h + 1)] } ∧
    (m61_getstatistics
        (run State.init [Op.malloc 10 (h + 1), Op.free (h + 1), Op.free (h + 1)]).head).nactive
      = 0 ∧
    (m61_getstatistics
        (run State.init [Op.malloc 10 (h + 1), Op.free (h + 1), Op.free (h + 1)]).head).ntotal
      = 1 := by
  have e1 : run State.init [Op.malloc 10 (h + 1)]
      = { head := [{ address := h + 1, status := ACTIVE, size := 10 }],
          trace := [Event.malloc 10 (h + 1)] } := by
    simp [run, step, m61_malloc_eq, State.init]
  have r1 : m61_removefromlist (h + 1) [{ address := h + 1, status := ACTIVE, size := 10 }]
      = (SUCCESS, [{ address := 0, status := INACTIVE, size := 10 }]) := by
    simp [m61_removefromlist, remove_walk, remove_at]
  have r2 : m61_removefromlist (h + 1) [{ address := 0, status := INACTIVE, size := 10 }]
      = (NOTALLOC, [{ address := 0, status := INACTIVE, size := 10 }]) := by
    simp [m61_removefromlist, remove_walk, remove_at]
  have e2 : run State.init [Op.malloc 10 (h + 1), Op.free (h + 1)]
      = { head := [{ address := 0, status := INACTIVE, size := 10 }],
          trace := [Event.malloc 10 (h + 1), Event.free (h + 1)] } := by
    have : run State.init [Op.malloc 10 (h + 1), Op.free (h + 1)]
        = m61_free (h + 1) (run State.init [Op.malloc 10 (h + 1)]) := rfl
    rw [this, e1]
    simp [m61_free, r1]
  have e3 : run State.init [Op.malloc 10 (h + 1), Op.free (h + 1), Op.free (h + 1)]
      = { head := [{ address := 0, status := INACTIVE, size := 10 }],
          trace := [Event.malloc 10 (h + 1), Event.free (h + 1),
                    Event.fprintf Msg.notAllocated (h + 1)] } := by
    have : run State.init [Op.malloc 10 (h + 1), Op.free (h + 1), Op.free (h + 1)]
        = m61_free (h + 1) (run State.init [Op.malloc 10 (h + 1), Op.free (h + 1)]) := rfl
    rw [this, e2]
    simp [m61_free, r2, free_diag, NOTALLOC, SUCCESS, NOTINHEAP, INVLDFREE]
  refine ⟨by rw [e1, r1], by rw [e2, r2], by decide, e3, ?_, ?_⟩
  · rw [e3]; rfl
  · rw [e3]; rfl

/-- C2 (valid release succeeds): in every state reachable through the wrappers, for
every address `a` held by a node with status `ACTIVE`, `m61_removefromlist(a)` returns
`SUCCESS`; the node it changes is the first node holding `a`, which is `ACTIVE`; it
becomes `INACTIVE` with its size kept, and every other node, the order and the number
of nodes are unchanged. -/
theorem C2_valid_release_succeeds (s : State) (hs : Reachable s) (a : Nat) (node : list)
    (hmem : node ∈ s.head) (hact : node.status = ACTIVE) (haddr : node.address = a) :
    (m61_removefromlist a s.head).1 = SUCCESS ∧
    ∃ i n, s.head[i]? = some n ∧ n.address = a ∧ n.status = ACTIVE ∧
      (∀ j m, j < i → s.head[j]? = some m → m.address ≠ a) ∧
      (m61_removefromlist a s.head).2
        = s.head.set i { n with status := INACTIVE, address := 0 } ∧
      (m61_removefromlist a s.head).2.length = s.head.length ∧
      (∀ j, j ≠ i → (m61_removefromlist a s.head).2[j]? = s.head[j]?) ∧
      (m61_removefromlist a s.head).2[i]?
        = some { address := 0, status := INACTIVE, size := n.size } := by
  have hinv := Reachable_inv s hs
  have ha0 : a ≠ 0 := by
    rcases hinv node hmem with ⟨_, h, _⟩ | ⟨h, _⟩ | ⟨h, _⟩
    · rw [← haddr]; exact h
    · rw [hact] at h; exact absurd h (by decide)
    · rw [hact] at h; exact absurd h (by decide)
  rcases m61_removefromlist_cases a s.head with h | h | ⟨i, n, hf, hn, h⟩ | ⟨i, n, hf, hn, h⟩
  · rw [h.1] at hmem; simp at hmem
  · exact absurd haddr (h.2.1 node hmem)
  · exfalso
    have hnm : n ∈ s.head := List.getElem?_mem hf.1
    rcases hinv n hnm with ⟨h1, _⟩ | ⟨_, h2⟩ | ⟨_, h2, _⟩
    · exact hn h1
    · exact ha0 (by rw [← hf.2.1, h2])
    · exact ha0 (by rw [← hf.2.1, h2])
  · refine ⟨by rw [h], i, n, hf.1, hf.2.1, hn, hf.2.2, by rw [h]; rfl, by rw [h]; simp, ?_, ?_⟩
    · intro j hj
      rw [h]
      simp [List.getElem?_set, Ne.symm hj]
    · rw [h]
      have hi : i < s.head.length := by
        rcases List.getElem?_eq_some.1 hf.1 with ⟨hi, _⟩
        exact hi
      simp [List.getElem?_set, hi, released]

/-- C2 witness: after `m61_malloc(10)` returned `1` and `m61_malloc(5)` returned `2`,
releasing `1` succeeds. -/
theorem C2_valid_release_succeeds_witness :
    Reachable (run State.init [Op.malloc 10 1, Op.malloc 5 2]) ∧
    ({ address := 1, status := ACTIVE, size := 10 } : list)
      ∈ (run State.init [Op.malloc 10 1, Op.malloc 5 2]).head ∧
    (m61_removefromlist 1 (run State.init [Op.malloc 10 1, Op.malloc 5 2]).head).1
      = SUCCESS :=
  ⟨Reachable_run _ _ Reachable.init, by decide,
    (C2_valid_release_succeeds (run State.init [Op.malloc 10 1, Op.malloc 5 2])
      (Reachable_run _ _ Reachable.init) 1 { address := 1, status := ACTIVE, size := 10 }
      (by decide) rfl rfl).1⟩

/-- C3 (unknown address, the code evaluated): after `m61_malloc(10)` returned `1` and
`m61_free(1)`, the null pointer was never returned by the allocator and the registry is
non-empty, yet `m61_removefromlist(NULL)` returns `INVLDFREE`, not `NOTALLOC`: line 245
stored NULL in the released node, so the walk finds a node holding the pointer. The
classification stated for every never-returned address therefore fails. -/
theorem C3_null_after_release_classified_invalid :
    Reachable (run State.init [Op.malloc 10 1, Op.free 1]) ∧
    0 ∉ returned (run State.init [Op.malloc 10 1, Op.free 1]).trace ∧
    (run State.init [Op.malloc 10 1, Op.free 1]).head
      = [{ address := 0, status := INACTIVE, size := 10 }] ∧
    (run State.init [Op.malloc 10 1, Op.free 1]).head ≠ [] ∧
    (m61_removefromlist 0 (run State.init [Op.malloc 10 1, Op.free 1]).head).1 = INVLDFREE ∧
    (m61_removefromlist 0 (run State.init [Op.malloc 10 1, Op.free 1]).head).1 ≠ NOTALLOC ∧
    ¬ (∀ s : State, Reachable s → ∀ p : Nat, p ∉ returned s.trace →
        (s.head = [] → (m61_removefromlist p s.head).1 = NOTINHEAP) ∧
        (s.head ≠ [] → (m61_removefromlist p s.head).1 = NOTALLOC)) := by
  refine ⟨Reachable_run _ _ Reachable.init, by decide, by decide, by decide, by decide,
    by decide, ?_⟩
  intro h
  have h1 := (h (run State.init [Op.malloc 10 1, Op.free 1])
    (Reachable_run _ _ Reachable.init) 0 (by decide)).2 (by decide)
  revert h1
  decide

/-- In every state reachable through the wrappers, a non-null pointer `p` that the
allocator never returned is held by no node: `m61_removefromlist(p)` returns `NOTINHEAP`
when the registry is empty and `NOTALLOC` when it is not, and leaves the registry as it
was. -/
theorem removefromlist_unknown_nonnull (s : State) (hs : Reachable s) (p : Nat)
    (hp : p ∉ returned s.trace) (hnull : p ≠ 0) :
    (s.head = [] → (m61_removefromlist p s.head).1 = NOTINHEAP) ∧
    (s.head ≠ [] → (m61_removefromlist p s.head).1 = NOTALLOC) ∧
    (m61_removefromlist p s.head).2 = s.head := by
  have hinv := Reachable_inv s hs
  have hno : ∀ n ∈ s.head, n.address ≠ p := by
    intro n hn hnp
    rcases hinv n hn with ⟨_, _, h3⟩ | ⟨_, h2⟩ | ⟨_, h2, _⟩
    · rw [hnp] at h3; exact hp h3
    · exact hnull (by rw [← hnp, h2])
    · exact hnull (by rw [← hnp, h2])
  rcases m61_removefromlist_cases p s.head with h | h | ⟨i, n, hf, _, _⟩ | ⟨i, n, hf, _, _⟩
  · exact ⟨fun _ => by rw [h.2], fun hne => absurd h.1 hne, by rw [h.2]⟩
  · exact ⟨fun he => absurd he h.1, fun _ => by rw [h.2.2], by rw [h.2.2]⟩
  · exact absurd hf.2.1 (hno n (List.getElem?_mem hf.1))
  · exact absurd hf.2.1 (hno n (List.getElem?_mem hf.1))

/-- C4 (rejected releases do not mutate): for every registry and every pointer `p`, if
`m61_removefromlist(p)` returns a status other than `SUCCESS`, that status is
`NOTINHEAP`, `INVLDFREE` or `NOTALLOC`, the registry afterwards is identical to the
registry before, and `m61_getstatistics` is unchanged. -/
theorem C4_rejected_release_no_mutation (head : List list) (p : Nat)
    (h : (m61_removefromlist p head).1 ≠ SUCCESS) :
    (m61_removefromlist p head).2 = head ∧
    m61_getstatistics (m61_removefromlist p head).2 = m61_getstatistics head ∧
    ((m61_removefromlist p head).1 = NOTINHEAP ∨ (m61_removefromlist p head).1 = INVLDFREE ∨
      (m61_removefromlist p head).1 = NOTALLOC) := by
  rcases m61_removefromlist_cases p head with h1 | h1 | ⟨i, n, _, _, h1⟩ | ⟨i, n, _, _, h1⟩
  · rw [h1.2]; exact ⟨rfl, rfl, Or.inl rfl⟩
  · rw [h1.2.2]; exact ⟨rfl, rfl, Or.inr (Or.inr rfl)⟩
  · rw [h1]; exact ⟨rfl, rfl, Or.inr (Or.inl rfl)⟩
  · rw [h1] at h; exact absurd rfl h

/-- C4 witness: releasing the null pointer with one `FAILED` node is rejected
(`INVLDFREE`) and leaves the registry as it was. -/
theorem C4_rejected_release_no_mutation_witness :
    (m61_removefromlist 0 [{ address := 0, status := FAILED, size := 8 }]).1 ≠ SUCCESS ∧
    (m61_removefromlist 0 [{ address := 0, status := FAILED, size := 8 }]).2
      = [{ address := 0, status := FAILED, size := 8 }] :=
  ⟨by decide,
    (C4_rejected_release_no_mutation [{ address := 0, status := FAILED, size := 8 }] 0
      (by decide)).1⟩

/-- C5 (`m61_free` forwards exactly the valid releases): for every state and pointer
`p`, `m61_free(p)` logs exactly one action: the call `free(p)` of the underlying
allocator when `m61_removefromlist(p)` returns `SUCCESS`, and otherwise the one
diagnostic matching the status (`NOTINHEAP`, `INVLDFREE`, `NOTALLOC`); the underlying
`free` is called if and only if the status is `SUCCESS`, and the registry afterwards is
the one `m61_removefromlist` leaves. -/
theorem C5_free_forwards_iff_success (s : State) (p : Nat) :
    (((m61_removefromlist p s.head).1 = SUCCESS ∧
        (m61_free p s).trace = s.trace ++ [Event.free p]) ∨
      ((m61_removefromlist p s.head).1 = NOTINHEAP ∧
        (m61_free p s).trace = s.trace ++ [Event.fprintf Msg.notInHeap p]) ∨
      ((m61_removefromlist p s.head).1 = INVLDFREE ∧
        (m61_free p s).trace = s.trace ++ [Event.fprintf Msg.invalidFree p]) ∨
      ((m61_removefromlist p s.head).1 = NOTALLOC ∧
        (m61_free p s).trace = s.trace ++ [Event.fprintf Msg.notAllocated p])) ∧
    ((∃ q, Event.free q ∈ (m61_free p s).trace.drop s.trace.length) ↔
      (m61_removefromlist p s.head).1 = SUCCESS) ∧
    (m61_free p s).head = (m61_removefromlist p s.head).2 := by
  have ht := m61_free_trace p s
  refine ⟨?_, ?_, m61_free_head p s⟩
  · rcases m61_removefromlist_cases p s.head with h | h | ⟨i, n, _, _, h⟩ | ⟨i, n, _, _, h⟩
    · right; left
      rw [ht, h.2]; exact ⟨rfl, by simp [NOTINHEAP, SUCCESS]⟩
    · right; right; right
      rw [ht, h.2.2]; exact ⟨rfl, by simp [NOTINHEAP, SUCCESS, NOTALLOC, INVLDFREE]⟩
    · right; right; left
      rw [ht, h]; exact ⟨rfl, by simp [NOTINHEAP, SUCCESS, INVLDFREE]⟩
    · left
      rw [ht, h]; exact ⟨rfl, by simp⟩
  · rw [ht]
    simp only [List.drop_left]
    by_cases h : (m61_removefromlist p s.head).1 = SUCCESS
    · simp [h]
    · simp only [h, if_false, iff_false]
      rintro ⟨q, hq⟩
      split at hq
      · simp at hq
      · split at hq <;> simp at hq

/-- C6 (`m61_malloc` records every attempt): for every state, size `sz` and allocator
result `r`, `m61_malloc(sz)` calls the underlying `malloc(sz)` once, returns `r`
unchanged, and the new registry is the old one with exactly one node appended at the
end: `(r, sz, ACTIVE)` when `r` is non-null and `(NULL, sz, FAILED)` when `r` is null. -/
theorem C6_malloc_appends_record (s : State) (sz r : Nat) :
    (m61_malloc sz r s).1 = r ∧
    (m61_malloc sz r s).2.head
      = s.head ++ [if r ≠ 0 then { address := r, status := ACTIVE, size := sz }
                   else { address := 0, status := FAILED, size := sz }] ∧
    (m61_malloc sz r s).2.trace = s.trace ++ [Event.malloc sz r] := by
  rw [m61_malloc_eq]
  refine ⟨rfl, ?_, rfl⟩
  by_cases hr : r = 0 <;> simp [hr]

/-! ## Claims about the statistics (`m61_getstatistics`) -/

theorem stats_loop_eq (l : List list) (st : m61_statistics) (hb : stats_bounded st) :
    stats_loop l st =
      { nactive := (st.nactive + count_status (fun x => x = ACTIVE) l) % SIZE_MOD,
        active_size := (st.active_size + bytes_status (fun x => x = ACTIVE) l) % SIZE_MOD,
        ntotal :=
          (st.ntotal + count_status (fun x => x = ACTIVE || x = INACTIVE) l) % SIZE_MOD,
        total_size :=
          (st.total_size + bytes_status (fun x => x = ACTIVE || x = INACTIVE) l) % SIZE_MOD,
        nfail := (st.nfail + count_status (fun x => x = FAILED) l) % SIZE_MOD,
        fail_size := (st.fail_size + bytes_status (fun x => x = FAILED) l) % SIZE_MOD } := by
  induction l generalizing st with
  | nil =>
    obtain ⟨h1, h2, h3, h4, h5, h6⟩ := hb
    simp [stats_loop, count_status, bytes_status, Nat.mod_eq_of_lt, h1, h2, h3, h4, h5, h6]
  | cons n l ih =>
    obtain ⟨h1, h2, h3, h4, h5, h6⟩ := hb
    have hM : 0 < SIZE_MOD := by decide
    have hlt : ∀ x, x % SIZE_MOD < SIZE_MOD := fun x => Nat.mod_lt x hM
    simp only [stats_loop]
    by_cases hA : n.status = ACTIVE
    · have hst : stats_step st n =
          { st with
            nactive := (st.nactive + 1) % SIZE_MOD,
            total_size := (st.total_size + n.size) % SIZE_MOD,
            active_size := (st.active_size + n.size) % SIZE_MOD,
            ntotal := (st.ntotal + 1) % SIZE_MOD } := by
        simp [stats_step, stats_active, stats_inactive, stats_failed, hA, ACTIVE, INACTIVE,
          FAILED]
      rw [hst, ih]
      · simp only [count_status, bytes_status, List.filter_cons, hA, ACTIVE, INACTIVE, FAILED,
          SIZE_MOD]
        simp only [m61_statistics.mk.injEq]
        refine ⟨?_, ?_, ?_, ?_, ?_, ?_⟩ <;> simp <;> omega
      · exact ⟨hlt _, hlt _, hlt _, hlt _, h5, h6⟩
    · by_cases hI : n.status = INACTIVE
      · have hst : stats_step st n =
            { st with
              total_size := (st.total_size + n.size) % SIZE_MOD,
              ntotal := (st.ntotal + 1) % SIZE_MOD } := by
          simp [stats_step, stats_active, stats_inactive, stats_failed, hI, ACTIVE, INACTIVE,
            FAILED]
        rw [hst, ih]
        · simp only [count_status, bytes_status, List.filter_cons, hI, ACTIVE, INACTIVE, FAILED,
            SIZE_MOD]
          simp only [m61_statistics.mk.injEq]
          refine ⟨?_, ?_, ?_, ?_, ?_, ?_⟩ <;> simp <;> omega
        · exact ⟨h1, h2, hlt _, hlt _, h5, h6⟩
      · by_cases hF : n.status = FAILED
        · have hst : stats_step st n =
              { st with
                nfail := (st.nfail + 1) % SIZE_MOD,
                fail_size := (st.fail_size + n.size) % SIZE_MOD } := by
            simp [stats_step, stats_active, stats_inactive, stats_failed, hF, ACTIVE, INACTIVE,
              FAILED]
          rw [hst, ih]
          · simp only [count_status, bytes_status, List.filter_cons, hF, ACTIVE, INACTIVE, FAILED,
              SIZE_MOD]
            simp only [m61_statistics.mk.injEq]
            refine ⟨?_, ?_, ?_, ?_, ?_, ?_⟩ <;> simp <;> omega
          · exact ⟨h1, h2, h3, h4, hlt _, hlt _⟩
        · have hst : stats_step st n = st := by
            simp [stats_step, stats_active, stats_inactive, stats_failed, hA, hI, hF]
          rw [hst, ih]
          · simp [count_status, bytes_status, List.filter_cons, hA, hI, hF]
          · exact ⟨h1, h2, h3, h4, h5, h6⟩

theorem count_status_le_length (P : Int → Bool) (l : List list) :
    count_status P l ≤ l.length := List.length_filter_le _ l

theorem m61_getstatistics_eq_spec (head : List list) (hlen : head.length < SIZE_MOD) :
    m61_getstatistics head = statistics_spec head := by
  have hz : stats_bounded stats_zero := by
    refine ⟨?_, ?_, ?_, ?_, ?_, ?_⟩ <;> decide
  have h1 := count_status_le_length (fun x => x = ACTIVE) head
  have h2 := count_status_le_length (fun x => x = ACTIVE || x = INACTIVE) head
  have h3 := count_status_le_length (fun x => x = FAILED) head
  unfold m61_getstatistics
  rw [stats_loop_eq head stats_zero hz]
  simp only [stats_zero, statistics_spec, Nat.zero_add, m61_statistics.mk.injEq, and_true,
    true_and]
  exact ⟨Nat.mod_eq_of_lt (by omega), Nat.mod_eq_of_lt (by omega), Nat.mod_eq_of_lt (by omega)⟩

theorem count_status_mono (l : List list) :
    count_status (fun x => x = ACTIVE) l
      ≤ count_status (fun x => x = ACTIVE || x = INACTIVE) l := by
  induction l with
  | nil => simp [count_status]
  | cons n l ih =>
    simp only [count_status] at ih ⊢
    by_cases hA : n.status = ACTIVE
    · simp [List.filter_cons, hA]; exact ih
    · by_cases hI : n.status = INACTIVE
      · have hIA : ¬ INACTIVE = ACTIVE := by decide
        simp [List.filter_cons, hI, hIA]; omega
      · simp [List.filter_cons, hA, hI]; exact ih

theorem bytes_status_mono (l : List list) :
    bytes_status (fun x => x = ACTIVE) l
      ≤ bytes_status (fun x => x = ACTIVE || x = INACTIVE) l := by
  induction l with
  | nil => simp [bytes_status]
  | cons n l ih =>
    simp only [bytes_status] at ih ⊢
    by_cases hA : n.status = ACTIVE
    · simp [List.filter_cons, hA]; exact ih
    · by_cases hI : n.status = INACTIVE
      · have hIA : ¬ INACTIVE = ACTIVE := by decide
        simp [List.filter_cons, hI, hIA]; omega
      · simp [List.filter_cons, hA, hI]; exact ih

/-- C7 (`m61_getstatistics` equals its reference definition): for every registry (of
fewer than `2 ^ 64` nodes, as any list in memory is), the statistics computed by the
loop are the reference statistics: `nactive`/`active_size` are the count and size sum
of the `ACTIVE` nodes, `ntotal`/`total_size` those of the `ACTIVE` or `INACTIVE` nodes,
`nfail`/`fail_size` those of the `FAILED` nodes, sums modulo `2 ^ 64`; and the empty
registry yields six zero counters. -/
theorem C7_getstatistics_refines_spec (head : List list) (hlen : head.length < SIZE_MOD) :
    m61_getstatistics head = statistics_spec head ∧
    m61_getstatistics []
      = { nactive := 0, active_size := 0, ntotal := 0, total_size := 0, nfail := 0,
          fail_size := 0 } :=
  ⟨m61_getstatistics_eq_spec head hlen, rfl⟩

/-- C7 witness: a registry with one node of each status. -/
theorem C7_getstatistics_refines_spec_witness :
    ([{ address := 1, status := ACTIVE, size := 5 },
      { address := 0, status := INACTIVE, size := 7 },
      { address := 0, status := FAILED, size := 9 }] : List list).length < SIZE_MOD ∧
    m61_getstatistics [{ address := 1, status := ACTIVE, size := 5 },
      { address := 0, status := INACTIVE, size := 7 },
      { address := 0, status := FAILED, size := 9 }]
      = statistics_spec [{ address := 1, status := ACTIVE, size := 5 },
          { address := 0, status := INACTIVE, size := 7 },
          { address := 0, status := FAILED, size := 9 }] :=
  ⟨by decide,
    (C7_getstatistics_refines_spec [{ address := 1, status := ACTIVE, size := 5 },
      { address := 0, status := INACTIVE, size := 7 },
      { address := 0, status := FAILED, size := 9 }] (by decide)).1⟩

/-! ## Claims about histories of wrapper calls -/

theorem Evolves_refl (l : List list) : Evolves l l :=
  fun _ n h => ⟨n, h, rfl, Or.inl rfl⟩

theorem Evolves_trans (a b c : List list) (hab : Evolves a b) (hbc : Evolves b c) :
    Evolves a c := by
  intro i n hn
  obtain ⟨m, hm, hsz, hst⟩ := hab i n hn
  obtain ⟨k, hk, hsz2, hst2⟩ := hbc i m hm
  refine ⟨k, hk, by rw [hsz2, hsz], ?_⟩
  rcases hst with h1 | ⟨h1, h1b⟩
  · rcases hst2 with h2 | ⟨h2, h2b⟩
    · left; rw [h2, h1]
    · right; exact ⟨by rw [← h1, h2], h2b⟩
  · rcases hst2 with h2 | ⟨h2, _⟩
    · right; exact ⟨h1, by rw [h2, h1b]⟩
    · rw [h1b] at h2; exact absurd h2 (by decide)

theorem Evolves_append (l ex : List list) : Evolves l (l ++ ex) := by
  intro i n hn
  have hi : i < l.length := (List.getElem?_eq_some.1 hn).1
  exact ⟨n, by rw [List.getElem?_append_left hi]; exact hn, rfl, Or.inl rfl⟩

theorem Evolves_set_released (l : List list) (i : Nat) (n : list) (hn : l[i]? = some n)
    (hact : n.status = ACTIVE) : Evolves l (l.set i (released n)) := by
  intro j m hm
  have hj : j < l.length := (List.getElem?_eq_some.1 hm).1
  by_cases hij : i = j
  · subst hij
    rw [hn] at hm
    cases hm
    exact ⟨released n, by simp [List.getElem?_set, hj], rfl, Or.inr ⟨hact, rfl⟩⟩
  · exact ⟨m, by simp [List.getElem?_set, hij, hm], rfl, Or.inl rfl⟩

theorem Evolves_step (s0 : List list) (s : State) (op : Op) (h : Evolves s0 s.head) :
    Evolves s0 (step s op).head := by
  refine step_preserves (fun t => Evolves s0 t.head) (fun _ _ => True) ?_ ?_ ?_ ?_ s op ?_ h
  · intro s sz r _ hs
    rw [m61_malloc_eq]
    exact Evolves_trans _ _ _ hs (Evolves_append _ _)
  · intro s ptr hs
    rcases m61_free_head_cases ptr s with h | ⟨i, n, hf, hact, h⟩
    · rw [h]; exact hs
    · rw [h]; exact Evolves_trans _ _ _ hs (Evolves_set_released _ _ _ hf.1 hact)
  · intro s dst src k hs; exact hs
  · intro s ptr c k hs; exact hs
  · cases op <;> simp [OpCalls]

theorem Evolves_run (s : State) (ops : List Op) : Evolves s.head (run s ops).head := by
  have key : ∀ (ops : List Op) (t : State), Evolves s.head t.head →
      Evolves s.head (run t ops).head := by
    intro ops
    induction ops with
    | nil => intro t ht; exact ht
    | cons op ops ih => intro t ht; exact ih (step t op) (Evolves_step _ t op ht)
  exact key ops s (Evolves_refl _)

/-- C9 (history is append-only, status is monotone): for every state and every sequence
of wrapper calls (`m61_malloc`, `m61_free`, `m61_realloc`, `m61_calloc`, one call or
many), each node present before is still present afterwards at the same position with
the same size, and its status is unchanged or went from `ACTIVE` to `INACTIVE`; in
particular a `FAILED` node stays `FAILED` and an `INACTIVE` node stays `INACTIVE`. -/
theorem C9_history_append_only (s : State) (ops : List Op) (i : Nat) (n : list)
    (h : s.head[i]? = some n) :
    s.head.length ≤ (run s ops).head.length ∧
    ∃ m, (run s ops).head[i]? = some m ∧ m.size = n.size ∧
      (m.status = n.status ∨ (n.status = ACTIVE ∧ m.status = INACTIVE)) ∧
      (n.status = FAILED → m.status = FAILED) ∧
      (n.status = INACTIVE → m.status = INACTIVE) := by
  have hev := Evolves_run s ops
  obtain ⟨m, hm, hsz, hst⟩ := hev i n h
  refine ⟨?_, m, hm, hsz, hst, ?_, ?_⟩
  · by_contra hlt
    have hlt : (run s ops).head.length < s.head.length := Nat.lt_of_not_le hlt
    cases hl : s.head[(run s ops).head.length]? with
    | none =>
      have := List.getElem?_eq_none_iff.1 hl
      omega
    | some k =>
      obtain ⟨m2, hm2, _⟩ := hev _ k hl
      have := (List.getElem?_eq_some.1 hm2).1
      omega
  · intro hF
    rcases hst with h1 | ⟨h1, _⟩
    · rw [h1, hF]
    · rw [hF] at h1; exact absurd h1 (by decide)
  · intro hI
    rcases hst with h1 | ⟨h1, _⟩
    · rw [h1, hI]
    · rw [hI] at h1; exact absurd h1 (by decide)

/-- C9 witness: an `ACTIVE` node that a later `m61_realloc` releases keeps its position
and size. -/
theorem C9_history_append_only_witness :
    (run State.init [Op.malloc 10 1]).head[0]?
      = some { address := 1, status := ACTIVE, size := 10 } ∧
    ∃ m, (run (run State.init [Op.malloc 10 1]) [Op.realloc 1 20 2, Op.free 9]).head[0]?
        = some m ∧ m.size = 10 :=
  ⟨by decide,
    match (C9_history_append_only (run State.init [Op.malloc 10 1])
      [Op.realloc 1 20 2, Op.free 9] 0 { address := 1, status := ACTIVE, size := 10 }
      (by decide)).2 with
    | ⟨m, hm, hsz, _⟩ => ⟨m, hm, hsz⟩⟩

/-! ## Unique active address under the allocator contract -/

theorem live_log (tr : List Event) (e : Event) : live (tr ++ [e]) = live_step (live tr) e := by
  simp [live, List.foldl_append]

/-- The null pointer is never a live block, so the allocator contract always allows
the underlying `malloc` to fail. -/
theorem zero_not_mem_live (tr : List Event) : 0 ∉ live tr := by
  have key : ∀ (tr : List Event) (acc : List Nat), 0 ∉ acc → 0 ∉ tr.foldl live_step acc := by
    intro tr
    induction tr with
    | nil => intro acc h; exact h
    | cons e es ih =>
      intro acc h
      apply ih
      cases e with
      | malloc sz r =>
        simp only [live_step]
        split
        · rename_i hr
          simp only [List.mem_cons, not_or]
          exact ⟨fun h0 => hr h0.symm, h⟩
        · exact h
      | free p =>
        simp only [live_step, List.mem_filter, not_and]
        intro h0; exact absurd h0 h
      | memcpy d s n => exact h
      | memset q c n => exact h
      | fprintf m q => exact h
  exact key tr [] (by simp)

theorem m61_free_cases (ptr : Nat) (s : State) :
    ((m61_free ptr s).head = s.head ∧
      ∃ msg, (m61_free ptr s).trace = s.trace ++ [Event.fprintf msg ptr]) ∨
    (∃ i n, FirstAt ptr s.head i n ∧ n.status = ACTIVE ∧
      (m61_free ptr s).head = s.head.set i (released n) ∧
      (m61_free ptr s).trace = s.trace ++ [Event.free ptr]) := by
  rw [m61_free_head, m61_free_trace]
  rcases m61_removefromlist_cases ptr s.head with h | h | ⟨i, n, _, _, h⟩ | ⟨i, n, hf, hs, h⟩
  · left; rw [h.2]
    exact ⟨rfl, Msg.notInHeap, by simp [NOTINHEAP, SUCCESS]⟩
  · left; rw [h.2.2]
    exact ⟨rfl, Msg.notAllocated, by simp [NOTINHEAP, SUCCESS, NOTALLOC, INVLDFREE]⟩
  · left; rw [h]
    exact ⟨rfl, Msg.invalidFree, by simp [NOTINHEAP, SUCCESS, INVLDFREE]⟩
  · right; rw [h]
    exact ⟨i, n, hf, hs, rfl, by simp⟩

theorem released_not_active (n : list) : (released n).status ≠ ACTIVE := by
  simp [released, INACTIVE, ACTIVE]

theorem getElem?_set_released_active (l : List list) (k i : Nat) (n a : list)
    (h : (l.set k (released n))[i]? = some a) (ha : a.status = ACTIVE) :
    k ≠ i ∧ l[i]? = some a := by
  rw [List.getElem?_set] at h
  by_cases hki : k = i
  · rw [if_pos hki] at h
    split at h
    · cases h
      exact absurd ha (released_not_active n)
    · cases h
  · rw [if_neg hki] at h
    exact ⟨hki, h⟩

/-- The invariant behind claim C8: `ACTIVE` nodes hold live blocks, and no two `ACTIVE`
nodes hold the same address. -/
theorem UniqueActive_step (s : State) (op : Op) (hop : AllocOk s op)
    (hs : ActiveLive s ∧ UniqueActive s.head) :
    ActiveLive (step s op) ∧ UniqueActive (step s op).head := by
  refine step_preserves (fun t => ActiveLive t ∧ UniqueActive t.head)
    (fun s r => r ∉ live s.trace) ?_ ?_ ?_ ?_ s op hop hs
  · -- m61_malloc
    intro s sz r hr ⟨hl, hu⟩
    rw [m61_malloc_eq]
    constructor
    · intro n hn hact
      simp only [List.mem_append, List.mem_singleton] at hn
      simp only [live_log, live_step]
      rcases hn with hn | rfl
      · have := hl n hn hact
        split
        · exact List.mem_cons_of_mem _ this
        · exact this
      · by_cases hr0 : r = 0
        · simp [hr0, FAILED, ACTIVE] at hact
        · simp [hr0]
    · intro i j a b hij ha hb hsa hsb hab
      simp only at ha hb
      have hget : ∀ (x : list) (k : Nat) (c : list), (s.head ++ [x])[k]? = some c →
          s.head[k]? = some c ∨ (k = s.head.length ∧ c = x) := by
        intro x k c hc
        by_cases hk : k < s.head.length
        · rw [List.getElem?_append_left hk] at hc
          exact Or.inl hc
        · rw [List.getElem?_append_right (Nat.le_of_not_lt hk)] at hc
          have hk0 : k - s.head.length = 0 := by
            by_contra hne
            have : k - s.head.length = (k - s.head.length - 1) + 1 := by omega
            rw [this] at hc
            simp at hc
          rw [hk0] at hc
          simp at hc
          exact Or.inr ⟨by omega, hc.symm⟩
      rcases hget _ i a ha with ha1 | ⟨hi, har⟩
      · rcases hget _ j b hb with hb1 | ⟨hj, hbr⟩
        · exact hu i j a b hij ha1 hb1 hsa hsb hab
        · have hbr2 : b.address = r := by rw [hbr]
          exact hr (by rw [← hbr2, ← hab]; exact hl a (List.getElem?_mem ha1) hsa)
      · have har2 : a.address = r := by rw [har]
        rcases hget _ j b hb with hb1 | ⟨hj, hbr⟩
        · exact hr (by rw [← har2, hab]; exact hl b (List.getElem?_mem hb1) hsb)
        · exact hij (by rw [hi, hj])
  · -- m61_free
    intro s ptr ⟨hl, hu⟩
    rcases m61_free_cases ptr s with ⟨hh, msg, ht⟩ | ⟨k, n, hf, hact, hh, ht⟩
    · constructor
      · intro m hm hma
        rw [hh] at hm
        rw [ht, live_log]
        exact hl m hm hma
      · rw [hh]; exact hu
    · constructor
      · intro m hm hma
        rw [hh] at hm
        rw [ht, live_log]
        obtain ⟨j, hj⟩ := List.mem_iff_getElem?.1 hm
        obtain ⟨hkj, hj2⟩ := getElem?_set_released_active _ _ _ _ _ hj hma
        have hne : n.address ≠ m.address := hu k j n m hkj hf.1 hj2 hact hma
        have hml := hl m (List.getElem?_mem hj2) hma
        simp only [live_step, List.mem_filter]
        refine ⟨hml, ?_⟩
        rw [hf.2.1] at hne
        simpa using Ne.symm hne
      · rw [hh]
        intro i j a b hij ha hb hsa hsb
        obtain ⟨_, ha2⟩ := getElem?_set_released_active _ _ _ _ _ ha hsa
        obtain ⟨_, hb2⟩ := getElem?_set_released_active _ _ _ _ _ hb hsb
        exact hu i j a b hij ha2 hb2 hsa hsb
  · -- memcpy
    intro s dst src k ⟨hl, hu⟩
    refine ⟨?_, hu⟩
    intro m hm hma
    show m.address ∈ live (s.trace ++ [Event.memcpy dst src k])
    rw [live_log]
    exact hl m hm hma
  · -- memset
    intro s ptr c k ⟨hl, hu⟩
    refine ⟨?_, hu⟩
    intro m hm hma
    show m.address ∈ live (s.trace ++ [Event.memset ptr c k])
    rw [live_log]
    exact hl m hm hma

theorem ReachableOk_inv (s : State) (hs : ReachableOk s) :
    ActiveLive s ∧ UniqueActive s.head := by
  induction hs with
  | init =>
    constructor
    · intro n hn; simp [State.init] at hn
    · intro i j a b _ ha; simp [State.init] at ha
  | step s op _ hop ih => exact UniqueActive_step s op hop ih

/-- C8 (unique active address): in every state reachable from the empty registry by
`m61_malloc`, `m61_free`, `m61_realloc` and `m61_calloc` calls, given an underlying
allocator that never returns a block that is currently allocated and not yet freed, no
two nodes with status `ACTIVE` (at distinct positions `i`, `j`) hold the same address. -/
theorem C8_unique_active_address (s : State) (hs : ReachableOk s) (i j : Nat) (a b : list)
    (hij : i ≠ j) (ha : s.head[i]? = some a) (hb : s.head[j]? = some b)
    (hsa : a.status = ACTIVE) (hsb : b.status = ACTIVE) : a.address ≠ b.address :=
  (ReachableOk_inv s hs).2 i j a b hij ha hb hsa hsb

/-- C8 witness: two blocks `1` and `2` handed out by a well-behaved allocator. -/
theorem C8_unique_active_address_witness :
    ReachableOk (step (step State.init (Op.malloc 10 1)) (Op.malloc 5 2)) ∧
    (step (step State.init (Op.malloc 10 1)) (Op.malloc 5 2)).head[0]?
      = some { address := 1, status := ACTIVE, size := 10 } ∧
    (step (step State.init (Op.malloc 10 1)) (Op.malloc 5 2)).head[1]?
      = some { address := 2, status := ACTIVE, size := 5 } ∧
    (1 : Nat) ≠ 2 :=
  have hr : ReachableOk (step (step State.init (Op.malloc 10 1)) (Op.malloc 5 2)) :=
    ReachableOk.step _ _
      (ReachableOk.step _ _ ReachableOk.init (show 1 ∉ live [] by decide))
      (show 2 ∉ live (step State.init (Op.malloc 10 1)).trace by decide)
  ⟨hr, by decide, by decide,
    C8_unique_active_address _ hr 0 1 { address := 1, status := ACTIVE, size := 10 }
      { address := 2, status := ACTIVE, size := 5 } (by decide) (by decide) (by decide)
      rfl rfl⟩

/-! ## The statistics invariant -/

/-- Statistics of a registry made of `k` released blocks of `sz` bytes followed by one
active block of `a` bytes. -/
theorem stats_replicate (k sz a : Nat) (hk : k + 1 < SIZE_MOD) :
    (m61_getstatistics (List.replicate k { address := 0, status := INACTIVE, size := sz }
        ++ [{ address := 1, status := ACTIVE, size := a }])).active_size = a % SIZE_MOD ∧
    (m61_getstatistics (List.replicate k { address := 0, status := INACTIVE, size := sz }
        ++ [{ address := 1, status := ACTIVE, size := a }])).total_size
      = (k * sz + a) % SIZE_MOD := by
  rw [m61_getstatistics_eq_spec _ (by simpa using hk)]
  have hIA : ¬ INACTIVE = ACTIVE := by decide
  simp [statistics_spec, bytes_status, List.filter_append, List.filter_replicate, hIA]

/-- C10 (as stated, refuted): the registry left by `m61_malloc(2^64 - 1)` returning `5`,
`m61_free(5)` and `m61_malloc(2)` returning `1` holds an `INACTIVE` node of size
`2^64 - 1` and an `ACTIVE` node of size `2`; `total_size` wraps around to `1` while
`active_size` is `2`, so `active_size ≤ total_size` fails. The same happens with
`2^18 - 1` released blocks of `2^46` bytes and one active block of `2^46` bytes:
`total_size` is `0`. -/
theorem C10_counterexample_total_size_wraps :
    (run State.init [Op.malloc (2 ^ 64 - 1) 5, Op.free 5, Op.malloc 2 1]).head
      = [{ address := 0, status := INACTIVE, size := 2 ^ 64 - 1 },
         { address := 1, status := ACTIVE, size := 2 }] ∧
    (m61_getstatistics [{ address := 0, status := INACTIVE, size := 2 ^ 64 - 1 },
         { address := 1, status := ACTIVE, size := 2 }]).active_size = 2 ∧
    (m61_getstatistics [{ address := 0, status := INACTIVE, size := 2 ^ 64 - 1 },
         { address := 1, status := ACTIVE, size := 2 }]).total_size = 1 ∧
    ¬ ((m61_getstatistics [{ address := 0, status := INACTIVE, size := 2 ^ 64 - 1 },
         { address := 1, status := ACTIVE, size := 2 }]).active_size
        ≤ (m61_getstatistics [{ address := 0, status := INACTIVE, size := 2 ^ 64 - 1 },
         { address := 1, status := ACTIVE, size := 2 }]).total_size) ∧
    (m61_getstatistics (List.replicate (2 ^ 18 - 1)
        { address := 0, status := INACTIVE, size := 2 ^ 46 }
        ++ [{ address := 1, status := ACTIVE, size := 2 ^ 46 }])).active_size = 2 ^ 46 ∧
    (m61_getstatistics (List.replicate (2 ^ 18 - 1)
        { address := 0, status := INACTIVE, size := 2 ^ 46 }
        ++ [{ address := 1, status := ACTIVE, size := 2 ^ 46 }])).total_size = 0 := by
  refine ⟨by decide, by decide, by decide, by decide, ?_, ?_⟩
  · rw [(stats_replicate (2 ^ 18 - 1) (2 ^ 46) (2 ^ 46) (by decide)).1]
    decide
  · rw [(stats_replicate (2 ^ 18 - 1) (2 ^ 46) (2 ^ 46) (by decide)).2]
    decide

/-- C10 (amended): for every registry (of fewer than `2 ^ 64` nodes), the statistics
computed by `m61_getstatistics` satisfy `nactive + (ntotal - nactive) = ntotal`, both in
unsigned 64-bit arithmetic and over the naturals, and `nactive ≤ ntotal`; and
`active_size ≤ total_size` holds whenever the sizes of the `ACTIVE` and `INACTIVE`
nodes add up to less than `2 ^ 64`, that is whenever `total_size` has not wrapped. -/
theorem C10_statistics_invariant (head : List list) (hlen : head.length < SIZE_MOD) :
    ((m61_getstatistics head).nactive +
        ((m61_getstatistics head).ntotal + SIZE_MOD - (m61_getstatistics head).nactive)
          % SIZE_MOD) % SIZE_MOD = (m61_getstatistics head).ntotal ∧
    (m61_getstatistics head).nactive +
        ((m61_getstatistics head).ntotal - (m61_getstatistics head).nactive)
      = (m61_getstatistics head).ntotal ∧
    (m61_getstatistics head).nactive ≤ (m61_getstatistics head).ntotal ∧
    (bytes_status (fun st => st = ACTIVE || st = INACTIVE) head < SIZE_MOD →
      (m61_getstatistics head).active_size ≤ (m61_getstatistics head).total_size) := by
  rw [m61_getstatistics_eq_spec head hlen]
  have hc := count_status_mono head
  have hb := bytes_status_mono head
  have h2 := count_status_le_length (fun x => x = ACTIVE || x = INACTIVE) head
  simp only [statistics_spec]
  simp only [SIZE_MOD] at hlen ⊢
  refine ⟨by omega, by omega, hc, ?_⟩
  intro hsum
  omega

/-- C10 witness: one active block of 5 bytes and one released block of 7 bytes. -/
theorem C10_statistics_invariant_witness :
    ([{ address := 1, status := ACTIVE, size := 5 },
      { address := 0, status := INACTIVE, size := 7 }] : List list).length < SIZE_MOD ∧
    (m61_getstatistics [{ address := 1, status := ACTIVE, size := 5 },
      { address := 0, status := INACTIVE, size := 7 }]).nactive
      ≤ (m61_getstatistics [{ address := 1, status := ACTIVE, size := 5 },
      { address := 0, status := INACTIVE, size := 7 }]).ntotal :=
  ⟨by decide,
    (C10_statistics_invariant [{ address := 1, status := ACTIVE, size := 5 },
      { address := 0, status := INACTIVE, size := 7 }] (by decide)).2.2.1⟩

/-! ## Release at the first node holding the pointer -/

theorem FirstAt_unique (ptr : Nat) (l : List list) (i j : Nat) (n m : list)
    (hi : FirstAt ptr l i n) (hj : FirstAt ptr l j m) : i = j ∧ n = m := by
  have hij : i = j := by
    rcases Nat.lt_trichotomy i j with h | h | h
    · exact absurd hi.2.1 (hj.2.2 i n h hi.1)
    · exact h
    · exact absurd hj.2.1 (hi.2.2 j m h hj.1)
  subst hij
  have := hi.1
  rw [hj.1] at this
  cases this
  exact ⟨rfl, rfl⟩

theorem m61_removefromlist_success (ptr : Nat) (l : List list) (k : Nat) (n : list)
    (hf : FirstAt ptr l k n) (hact : n.status = ACTIVE) :
    m61_removefromlist ptr l = (SUCCESS, l.set k (released n)) := by
  rcases m61_removefromlist_cases ptr l with h | h | ⟨i, m, hf2, hs, _⟩ | ⟨i, m, hf2, _, h⟩
  · have := hf.1; rw [h.1] at this; simp at this
  · exact absurd hf.2.1 (h.2.1 n (List.getElem?_mem hf.1))
  · obtain ⟨_, hnm⟩ := FirstAt_unique ptr l k i n m hf hf2
    rw [← hnm] at hs; exact absurd hact hs
  · obtain ⟨hki, hnm⟩ := FirstAt_unique ptr l k i n m hf hf2
    rw [h, hki, hnm]

theorem m61_removefromlist_invalid (ptr : Nat) (l : List list) (k : Nat) (n : list)
    (hf : FirstAt ptr l k n) (hact : n.status ≠ ACTIVE) :
    m61_removefromlist ptr l = (INVLDFREE, l) := by
  rcases m61_removefromlist_cases ptr l with h | h | ⟨i, m, _, _, h⟩ | ⟨i, m, hf2, hs, _⟩
  · have := hf.1; rw [h.1] at this; simp at this
  · exact absurd hf.2.1 (h.2.1 n (List.getElem?_mem hf.1))
  · exact h
  · obtain ⟨_, hnm⟩ := FirstAt_unique ptr l k i n m hf hf2
    rw [← hnm] at hs; exact absurd hs hact

theorem m61_free_success (ptr : Nat) (s : State) (k : Nat) (n : list)
    (hf : FirstAt ptr s.head k n) (hact : n.status = ACTIVE) :
    m61_free ptr s
      = { head := s.head.set k (released n), trace := s.trace ++ [Event.free ptr] } := by
  simp [m61_free, m61_removefromlist_success ptr s.head k n hf hact]

theorem m61_free_invalid (ptr : Nat) (s : State) (k : Nat) (n : list)
    (hf : FirstAt ptr s.head k n) (hact : n.status ≠ ACTIVE) :
    m61_free ptr s
      = { head := s.head, trace := s.trace ++ [Event.fprintf Msg.invalidFree ptr] } := by
  simp [m61_free, m61_removefromlist_invalid ptr s.head k n hf hact, free_diag, INVLDFREE,
    SUCCESS, NOTINHEAP, NOTALLOC]

/-- When no node from position `i` on, the last node apart, holds `ptr`, the loop of
`m61_realloc` changes nothing. -/
theorem realloc_loop_no_match (new_ptr ptr : Nat) (fuel i : Nat) (s : State)
    (h : ∀ (j : Nat) (n : list), i ≤ j → j + 1 < s.head.length → s.head[j]? = some n →
      n.address ≠ ptr) :
    realloc_loop new_ptr ptr fuel i s = Except.ok s := by
  induction fuel generalizing i with
  | zero => rfl
  | succ k ih =>
    rw [realloc_loop]
    split
    · rename_i temp nxt htemp hnxt
      have hlt : i + 1 < s.head.length := (List.getElem?_eq_some.1 hnxt).1
      have hne : temp.address ≠ ptr := h i temp (Nat.le_refl i) hlt htemp
      have hb : realloc_body new_ptr ptr temp s = Except.ok s := by simp [realloc_body, hne]
      rw [hb]
      exact ih (i + 1) (fun j n hij hj hn => h j n (by omega) hj hn)
    · rfl

/-- The loop of `m61_realloc` up to the first node holding `ptr` (at position `k`, not
the last node): the nodes before it are skipped, then the body runs at that node. -/
theorem realloc_loop_to_match (new_ptr ptr : Nat) (fuel i k : Nat) (n : list) (t : State)
    (hf : FirstAt ptr t.head k n) (hk : k + 1 < t.head.length) (hik : i ≤ k)
    (hfuel : k - i + 1 ≤ fuel) :
    realloc_loop new_ptr ptr fuel i t
      = match realloc_body new_ptr ptr n t with
        | Except.ok t1 => realloc_loop new_ptr ptr (fuel - (k - i) - 1) (k + 1) t1
        | Except.error t1 => Except.error t1 := by
  induction fuel generalizing i with
  | zero => omega
  | succ f ih =>
    have hi : i < t.head.length := by omega
    have hi1 : i + 1 < t.head.length := by omega
    rw [realloc_loop]
    split
    · rename_i temp nxt htemp hnxt
      by_cases heq : i = k
      · subst heq
        rw [hf.1] at htemp
        cases htemp
        have : f + 1 - (i - i) - 1 = f := by omega
        rw [this]
      · have hlt : i < k := by omega
        have hne : temp.address ≠ ptr := hf.2.2 i temp hlt htemp
        have hb : realloc_body new_ptr ptr temp t = Except.ok t := by
          simp [realloc_body, hne]
        rw [hb]
        simp only
        rw [ih (i + 1) (by omega) (by omega)]
        have : f - (k - (i + 1)) - 1 = f + 1 - (k - i) - 1 := by omega
        rw [this]
    · rename_i hnone
      exfalso
      exact hnone _ _ (List.getElem?_eq_getElem hi) (List.getElem?_eq_getElem hi1)

/-- What `m61_realloc(h, sz)` does, `sz != 0`, when exactly one node holds the address
`h`, that node is `ACTIVE` and the `memcpy` does not fault: one call of the underlying
`malloc`, one node appended, then `memcpy` of the old size from `h`, then the release of
`h`, and the allocator result is returned. -/
theorem m61_realloc_active (s : State) (h sz r k : Nat) (n : list) (hsz : sz ≠ 0)
    (hk : s.head[k]? = some n) (hact : n.status = ACTIVE) (haddr : n.address = h)
    (hothers : ∀ (j : Nat) (m : list), j ≠ k → s.head[j]? = some m → m.address ≠ h)
    (hok : ¬ memcpy_faults r h n.size) :
    m61_realloc h sz r s
      = Except.ok (r,
          ⟨s.head.set k (released n) ++ [⟨r, if r ≠ 0 then ACTIVE else FAILED, sz⟩],
            s.trace ++ [Event.malloc sz r, Event.memcpy r h n.size, Event.free h]⟩) := by
  have hkl : k < s.head.length := (List.getElem?_eq_some.1 hk).1
  obtain ⟨nn, hnn⟩ : ∃ nn : list, nn = ⟨r, if r ≠ 0 then ACTIVE else FAILED, sz⟩ :=
    ⟨_, rfl⟩
  rw [← hnn]
  have hm : m61_malloc sz r s
      = (r, { head := s.head ++ [nn], trace := s.trace ++ [Event.malloc sz r] }) := by
    rw [m61_malloc_eq, hnn]
  have hfirst : FirstAt h (s.head ++ [nn]) k n := by
    refine ⟨by rw [List.getElem?_append_left hkl]; exact hk, haddr, ?_⟩
    intro j m hj hjm
    rw [List.getElem?_append_left (by omega)] at hjm
    exact hothers j m (by omega) hjm
  unfold m61_realloc
  simp only [hm, ne_eq, hsz, not_false_eq_true, if_true]
  have hne : s.head ++ [nn] ≠ [] := by simp
  rw [if_pos hne]
  rw [realloc_loop_to_match r h _ 0 k n _ hfirst (by simp; omega) (Nat.zero_le k)
    (by simp; omega)]
  have hfree : m61_free h
      (State.log ⟨s.head ++ [nn], s.trace ++ [Event.malloc sz r]⟩ (Event.memcpy r h n.size))
      = ⟨(s.head ++ [nn]).set k (released n),
          s.trace ++ [Event.malloc sz r] ++ [Event.memcpy r h n.size] ++ [Event.free h]⟩ :=
    m61_free_success h _ k n hfirst hact
  have hbody : realloc_body r h n ⟨s.head ++ [nn], s.trace ++ [Event.malloc sz r]⟩
      = Except.ok ⟨(s.head ++ [nn]).set k (released n),
          s.trace ++ [Event.malloc sz r] ++ [Event.memcpy r h n.size] ++ [Event.free h]⟩ := by
    simp only [realloc_body, haddr, hok, if_true, if_false, hfree]
  rw [hbody]
  simp only
  rw [realloc_loop_no_match]
  · simp only
    rw [List.set_append_left k _ hkl]
    simp
  · intro j m hkj hj hjm
    simp only [List.length_set, List.length_append, List.length_singleton] at hj
    simp only at hjm
    rw [List.getElem?_set_ne (by omega), List.getElem?_append_left (by omega)] at hjm
    exact hothers j m (by omega) hjm

/-- What `m61_realloc(h, sz)` does, `sz != 0`, when the first node holding `h` makes the
`memcpy` fault: one call of the underlying `malloc`, one node appended, then the process
is killed in the `memcpy`; `h` is not released and nothing is returned. -/
theorem m61_realloc_fault (s : State) (h sz r k : Nat) (n : list) (hsz : sz ≠ 0)
    (hf : FirstAt h s.head k n) (hbad : memcpy_faults r h n.size) :
    m61_realloc h sz r s
      = Except.error
          ⟨s.head ++ [⟨r, if r ≠ 0 then ACTIVE else FAILED, sz⟩],
            s.trace ++ [Event.malloc sz r, Event.memcpy r h n.size]⟩ := by
  have hkl : k < s.head.length := (List.getElem?_eq_some.1 hf.1).1
  obtain ⟨nn, hnn⟩ : ∃ nn : list, nn = ⟨r, if r ≠ 0 then ACTIVE else FAILED, sz⟩ :=
    ⟨_, rfl⟩
  rw [← hnn]
  have hm : m61_malloc sz r s
      = (r, { head := s.head ++ [nn], trace := s.trace ++ [Event.malloc sz r] }) := by
    rw [m61_malloc_eq, hnn]
  have hfirst : FirstAt h (s.head ++ [nn]) k n := by
    refine ⟨by rw [List.getElem?_append_left hkl]; exact hf.1, hf.2.1, ?_⟩
    intro j m hj hjm
    rw [List.getElem?_append_left (by omega)] at hjm
    exact hf.2.2 j m hj hjm
  unfold m61_realloc
  simp only [hm, ne_eq, hsz, not_false_eq_true, if_true]
  have hne : s.head ++ [nn] ≠ [] := by simp
  rw [if_pos hne]
  rw [realloc_loop_to_match r h _ 0 k n _ hfirst (by simp; omega) (Nat.zero_le k)
    (by simp; omega)]
  have hbody : realloc_body r h n ⟨s.head ++ [nn], s.trace ++ [Event.malloc sz r]⟩
      = Except.error ⟨s.head ++ [nn],
          s.trace ++ [Event.malloc sz r] ++ [Event.memcpy r h n.size]⟩ := by
    simp only [realloc_body, hf.2.1, hbad, if_true, State.log]
  rw [hbody]
  simp

/-! ## Claims about `m61_realloc`, `m61_calloc` and `m61_printleakreport` -/

/-- C11 (resize to zero is release): for every state, every pointer `h` and whatever the
allocator would return, `m61_realloc(h, 0)` returns NULL and leaves exactly the state
`m61_free(h)` leaves: the same registry, the same logged diagnostic or forwarded
`free`, and no node appended. -/
theorem C11_realloc_zero_is_free (s : State) (h r : Nat) :
    m61_realloc h 0 r s = Except.ok (0, m61_free h s) ∧
    realloc_state (m61_realloc h 0 r s) = m61_free h s ∧
    (realloc_state (m61_realloc h 0 r s)).head.length = s.head.length := by
  have e : m61_realloc h 0 r s = Except.ok (0, m61_free h s) := by simp [m61_realloc]
  rw [e]
  exact ⟨rfl, rfl, m61_free_length h s⟩

/-- C12 (resize of the null handle, the code evaluated): after `m61_malloc(10)` returned
`1` and `m61_free(1)`, `m61_malloc(5)` (allocator result `2`) returns `2` after one call
of the underlying `malloc`, but `m61_realloc(NULL, 5)` does not return: its loop matches
the released node, whose address is NULL, and the process is killed in
`memcpy(2, NULL, 10)`. When the released block had size `0` the copy does not fault and
`m61_realloc(NULL, 5)` returns `2` after `memcpy(2, NULL, 0)` and an `m61_free(NULL)`
that prints the invalid-free diagnostic. -/
theorem C12_realloc_null_copies_and_reports :
    m61_malloc 5 2 (run State.init [Op.malloc 10 1, Op.free 1])
      = (2, ⟨[⟨0, INACTIVE, 10⟩, ⟨2, ACTIVE, 5⟩],
          [Event.malloc 10 1, Event.free 1, Event.malloc 5 2]⟩) ∧
    m61_realloc 0 5 2 (run State.init [Op.malloc 10 1, Op.free 1])
      = Except.error ⟨[⟨0, INACTIVE, 10⟩, ⟨2, ACTIVE, 5⟩],
          [Event.malloc 10 1, Event.free 1, Event.malloc 5 2, Event.memcpy 2 0 10]⟩ ∧
    m61_realloc 0 5 2 (run State.init [Op.malloc 0 1, Op.free 1])
      = Except.ok (2, ⟨[⟨0, INACTIVE, 0⟩, ⟨2, ACTIVE, 5⟩],
          [Event.malloc 0 1, Event.free 1, Event.malloc 5 2, Event.memcpy 2 0 0,
            Event.fprintf Msg.invalidFree 0]⟩) := by
  decide

/-- C13 (as stated, refuted): with one `ACTIVE` node holding address `1`, the pointer
`7` is the address of no node; `m61_free(7)` would print the not-allocated diagnostic,
but `m61_realloc(7, 5)` (allocator result `2`) prints nothing, does call the underlying
`malloc(5)`, appends a node and returns `2`. -/
theorem C13_counterexample_unknown_target_allocates :
    (∀ n ∈ (run State.init [Op.malloc 10 1]).head, n.address ≠ 7) ∧
    (m61_free 7 (run State.init [Op.malloc 10 1])).trace
      = [Event.malloc 10 1, Event.fprintf Msg.notAllocated 7] ∧
    m61_realloc 7 5 2 (run State.init [Op.malloc 10 1])
      = Except.ok (2, ⟨[⟨1, ACTIVE, 10⟩, ⟨2, ACTIVE, 5⟩],
          [Event.malloc 10 1, Event.malloc 5 2]⟩) := by
  decide

/-- C13 (amended): for every state, every `sz != 0` and every pointer `p` that is not
the address of any node, `m61_realloc(p, sz)` does exactly what `m61_malloc(sz)` does:
it calls the underlying allocator once, appends one node, returns the allocator result
and prints no diagnostic; `p` is not classified. -/
theorem C13_realloc_unknown_target_is_malloc (s : State) (p sz r : Nat) (hsz : sz ≠ 0)
    (hp : ∀ n ∈ s.head, n.address ≠ p) :
    m61_realloc p sz r s = Except.ok (m61_malloc sz r s) ∧
    (realloc_state (m61_realloc p sz r s)).trace = s.trace ++ [Event.malloc sz r] ∧
    (realloc_state (m61_realloc p sz r s)).head.length = s.head.length + 1 := by
  have e : m61_realloc p sz r s = Except.ok (m61_malloc sz r s) := by
    unfold m61_realloc
    simp only [ne_eq, hsz, not_false_eq_true, if_true]
    split
    · rw [realloc_loop_no_match]
      intro j n _ hj hn
      rw [m61_malloc_eq] at hj hn
      simp only [List.length_append, List.length_singleton] at hj
      simp only at hn
      rw [List.getElem?_append_left (by omega)] at hn
      exact hp n (List.getElem?_mem hn)
    · rfl
  rw [e, m61_malloc_eq]
  exact ⟨rfl, rfl, by simp [realloc_state]⟩

/-- C13 witness: the pointer `7` with one `ACTIVE` node holding address `1`. -/
theorem C13_realloc_unknown_target_is_malloc_witness :
    (5 : Nat) ≠ 0 ∧
    (∀ n ∈ (run State.init [Op.malloc 10 1]).head, n.address ≠ 7) ∧
    m61_realloc 7 5 2 (run State.init [Op.malloc 10 1])
      = Except.ok (m61_malloc 5 2 (run State.init [Op.malloc 10 1])) :=
  ⟨by decide, by decide,
    (C13_realloc_unknown_target_is_malloc (run State.init [Op.malloc 10 1]) 7 5 2
      (by decide) (by decide)).1⟩

/-- Without overflow `m61_calloc(nmemb, sz)` is `m61_malloc(nmemb * sz)` followed, when
the result is non-null, by zero-filling `nmemb * sz` bytes. -/
theorem m61_calloc_no_overflow (s : State) (nmemb sz r : Nat)
    (h : nmemb * sz < SIZE_MOD) :
    m61_calloc nmemb sz r s
      = if r ≠ 0 then
          (r, (m61_malloc (nmemb * sz) r s).2.log (Event.memset r 0 (nmemb * sz)))
        else (r, (m61_malloc (nmemb * sz) r s).2) := by
  unfold m61_calloc
  rw [Nat.mod_eq_of_lt h]
  simp only [m61_malloc_eq]

/-- C15 (overflow in `m61_calloc`, the code evaluated): the product
`(2^63 + 1) * 2` exceeds the maximum `size_t`, yet `m61_calloc(2^63 + 1, 2)` requests
the wrapped size `2` from the allocator and, the allocator returning `7`, returns `7`,
appends an `ACTIVE` node of size `2` and zero-fills `2` bytes; no `FAILED` node is
recorded. -/
theorem C15_calloc_overflow_wraps :
    (2 ^ 63 + 1) * 2 > SIZE_MOD - 1 ∧
    (2 ^ 63 + 1) * 2 % SIZE_MOD = 2 ∧
    m61_calloc (2 ^ 63 + 1) 2 7 State.init
      = (7, { head := [{ address := 7, status := ACTIVE, size := 2 }],
              trace := [Event.malloc 2 7, Event.memset 7 0 2] }) := by
  decide

/-- C16 (leak report, the code evaluated): after `m61_malloc(5)` returned `1`,
`m61_malloc(7)` returned `2` and `m61_free(1)`, the only `ACTIVE` node is `(2, 7)`, so
the report should contain exactly that entry, but `m61_printleakreport` prints
nothing. -/
theorem C16_leak_report_is_empty :
    leak_report_spec (run State.init [Op.malloc 5 1, Op.malloc 7 2, Op.free 1]).head
      = [(2, 7)] ∧
    m61_printleakreport (run State.init [Op.malloc 5 1, Op.malloc 7 2, Op.free 1]).head
      = [] ∧
    m61_printleakreport (run State.init [Op.malloc 5 1, Op.malloc 7 2, Op.free 1]).head
      ≠ leak_report_spec (run State.init [Op.malloc 5 1, Op.malloc 7 2, Op.free 1]).head := by
  decide

/-- C18 (address on release, the code evaluated): for every non-null address `h + 1`
held by an `ACTIVE` node of any size, the successful `m61_removefromlist(h + 1)` leaves
the node `INACTIVE` with its address overwritten by NULL (line 245), not retained. -/
theorem C18_release_clears_address (h sz : Nat) :
    m61_removefromlist (h + 1) [{ address := h + 1, status := ACTIVE, size := sz }]
      = (SUCCESS, [{ address := 0, status := INACTIVE, size := sz }]) ∧
    (0 : Nat) ≠ h + 1 := by
  refine ⟨?_, by omega⟩
  simp [m61_removefromlist, remove_walk, remove_at]

/-! ## Resizing an active block in a state reachable under the allocator contract -/

theorem ReachableOk_Reachable (s : State) (hs : ReachableOk s) : Reachable s := by
  induction hs with
  | init => exact Reachable.init
  | step s op _ _ ih => exact Reachable.step s op ih

/-- In a state reachable under the allocator contract, an `ACTIVE` node holds a
non-null address that no node at another position holds. -/
theorem active_address_alone (s : State) (hs : ReachableOk s) (k : Nat) (n : list)
    (hk : s.head[k]? = some n) (hact : n.status = ACTIVE) :
    ∀ (j : Nat) (m : list), j ≠ k → s.head[j]? = some m → m.address ≠ n.address := by
  have hinv := Reachable_inv s (ReachableOk_Reachable s hs)
  have huniq := (ReachableOk_inv s hs).2
  have hn0 : n.address ≠ 0 := by
    rcases hinv n (List.getElem?_mem hk) with ⟨_, h, _⟩ | ⟨h, _⟩ | ⟨h, _⟩
    · exact h
    · rw [hact] at h; exact absurd h (by decide)
    · rw [hact] at h; exact absurd h (by decide)
  intro j m hjk hj
  rcases hinv m (List.getElem?_mem hj) with ⟨h1, _⟩ | ⟨_, h2⟩ | ⟨_, h2, _⟩
  · exact huniq j k m n hjk hj hk h1 hact
  · rw [h2]; exact Ne.symm hn0
  · rw [h2]; exact Ne.symm hn0

theorem count_status_set_released (l : List list) (k : Nat) (n : list)
    (hk : l[k]? = some n) (hact : n.status = ACTIVE) :
    count_status (fun x => x = ACTIVE) (l.set k (released n)) + 1
      = count_status (fun x => x = ACTIVE) l := by
  induction l generalizing k with
  | nil => simp at hk
  | cons x xs ih =>
    cases k with
    | zero =>
      simp at hk
      subst hk
      have hr : ¬ (released x).status = ACTIVE := released_not_active x
      simp [count_status, List.filter_cons, hact, hr]
    | succ k =>
      have hk2 : xs[k]? = some n := by simpa using hk
      have := ih k hk2
      simp only [count_status] at this ⊢
      by_cases hx : x.status = ACTIVE
      · simp [List.filter_cons, hx]; omega
      · simp [List.filter_cons, hx]; omega

/-- C14 (bytes copied by resize, the code evaluated): for every old size, every new size
`newSize + 1 > 0` and every non-null handle `h + 1`, after `m61_malloc(oldSize)`
returned `h + 1` the call `m61_realloc(h + 1, newSize + 1)` runs
`memcpy(r, h + 1, oldSize)` whatever the allocator result `r` is: it copies the old
size, not the minimum of the two sizes; when the allocator succeeds (result `r + 1`) it
then releases `h + 1` and returns. With `oldSize = 10` and new size `5` it copies `10`
bytes into the block of `5`. -/
theorem C14_realloc_copies_old_size (oldSize newSize h r : Nat) :
    (realloc_state (m61_realloc (h + 1) (newSize + 1) r
        (m61_malloc oldSize (h + 1) State.init).2)).trace.take 3
      = [Event.malloc oldSize (h + 1), Event.malloc (newSize + 1) r,
         Event.memcpy r (h + 1) oldSize] ∧
    m61_realloc (h + 1) (newSize + 1) (r + 1) (m61_malloc oldSize (h + 1) State.init).2
      = Except.ok (r + 1, ⟨[⟨0, INACTIVE, oldSize⟩, ⟨r + 1, ACTIVE, newSize + 1⟩],
          [Event.malloc oldSize (h + 1), Event.malloc (newSize + 1) (r + 1),
           Event.memcpy (r + 1) (h + 1) oldSize, Event.free (h + 1)]⟩) ∧
    m61_realloc 1 5 2 (m61_malloc 10 1 State.init).2
      = Except.ok (2, ⟨[⟨0, INACTIVE, 10⟩, ⟨2, ACTIVE, 5⟩],
          [Event.malloc 10 1, Event.malloc 5 2, Event.memcpy 2 1 10, Event.free 1]⟩) ∧
    min 10 5 ≠ 10 := by
  have hs : (m61_malloc oldSize (h + 1) State.init).2
      = ⟨[⟨h + 1, ACTIVE, oldSize⟩], [Event.malloc oldSize (h + 1)]⟩ := by
    simp [m61_malloc_eq, State.init]
  have hothers : ∀ (j : Nat) (m : list), j ≠ 0 →
      [({ address := h + 1, status := ACTIVE, size := oldSize } : list)][j]? = some m →
      m.address ≠ h + 1 := by
    intro j m hj hjm
    cases j with
    | zero => exact absurd rfl hj
    | succ j => simp at hjm
  refine ⟨?_, ?_, by decide, by decide⟩
  · rw [hs]
    by_cases hbad : memcpy_faults r (h + 1) oldSize
    · rw [m61_realloc_fault ⟨[⟨h + 1, ACTIVE, oldSize⟩], [Event.malloc oldSize (h + 1)]⟩
        (h + 1) (newSize + 1) r 0 ⟨h + 1, ACTIVE, oldSize⟩ (by omega)
        ⟨rfl, rfl, fun j m hj _ => absurd hj (Nat.not_lt_zero j)⟩ hbad]
      rfl
    · rw [m61_realloc_active ⟨[⟨h + 1, ACTIVE, oldSize⟩], [Event.malloc oldSize (h + 1)]⟩
        (h + 1) (newSize + 1) r 0 ⟨h + 1, ACTIVE, oldSize⟩ (by omega) rfl rfl rfl hothers
        hbad]
      rfl
  · rw [hs]
    rw [m61_realloc_active ⟨[⟨h + 1, ACTIVE, oldSize⟩], [Event.malloc oldSize (h + 1)]⟩
      (h + 1) (newSize + 1) (r + 1) 0 ⟨h + 1, ACTIVE, oldSize⟩ (by omega) rfl rfl rfl
      hothers (by simp [memcpy_faults])]
    simp [released]

/-- C17 (copy-then-release ordering): in every state reachable under the allocator
contract in which `h` is the address of an `ACTIVE` node, for every `sz != 0` and every
allocator result `r`, the actions of `m61_realloc(h, sz)` are, in this order, the call
`malloc(sz)`, the `memcpy` from `h` and, unless the process is killed in that `memcpy`
(null `r`, positive old size), the forwarded `free(h)`; so every read of the old block
comes before its release and none after. -/
theorem C17_realloc_copy_before_release (s : State) (hs : ReachableOk s) (h sz r : Nat)
    (node : list) (hmem : node ∈ s.head) (hact : node.status = ACTIVE)
    (haddr : node.address = h) (hsz : sz ≠ 0) :
    (realloc_state (m61_realloc h sz r s)).trace
      = s.trace ++ [Event.malloc sz r, Event.memcpy r h node.size]
          ++ (if memcpy_faults r h node.size then [] else [Event.free h]) ∧
    (∀ (i j dst len : Nat),
      ((realloc_state (m61_realloc h sz r s)).trace.drop s.trace.length)[i]?
        = some (Event.memcpy dst h len) →
      ((realloc_state (m61_realloc h sz r s)).trace.drop s.trace.length)[j]?
        = some (Event.free h) →
      i < j) := by
  obtain ⟨k, hk⟩ := List.mem_iff_getElem?.1 hmem
  have hothers := active_address_alone s hs k node hk hact
  rw [haddr] at hothers
  have htrace : (realloc_state (m61_realloc h sz r s)).trace
      = s.trace ++ ([Event.malloc sz r, Event.memcpy r h node.size]
          ++ (if memcpy_faults r h node.size then [] else [Event.free h])) := by
    by_cases hbad : memcpy_faults r h node.size
    · rw [m61_realloc_fault s h sz r k node hsz
        ⟨hk, haddr, fun j m hj hjm => hothers j m (by omega) hjm⟩ hbad]
      simp [realloc_state, hbad]
    · rw [m61_realloc_active s h sz r k node hsz hk hact haddr hothers hbad]
      simp [realloc_state, hbad]
  refine ⟨by rw [htrace, List.append_assoc], ?_⟩
  intro i j dst len hi hj
  rw [htrace] at hi hj
  simp only [List.drop_left] at hi hj
  have hi1 : i = 1 := by
    match i, hi with
    | 0, hi => simp at hi
    | 1, _ => rfl
    | 2, hi => split at hi <;> simp at hi
    | i + 3, hi => split at hi <;> simp at hi
  have hj2 : j = 2 := by
    match j, hj with
    | 0, hj => simp at hj
    | 1, hj => simp at hj
    | 2, _ => rfl
    | j + 3, hj => split at hj <;> simp at hj
  omega

/-- C17 witness: resizing the block `1` of size `10` to size `20`. -/
theorem C17_realloc_copy_before_release_witness :
    ReachableOk (step State.init (Op.malloc 10 1)) ∧
    (realloc_state (m61_realloc 1 20 2 (step State.init (Op.malloc 10 1)))).trace
      = (step State.init (Op.malloc 10 1)).trace
          ++ [Event.malloc 20 2, Event.memcpy 2 1 10]
          ++ (if memcpy_faults 2 1 10 then [] else [Event.free 1]) :=
  have hr : ReachableOk (step State.init (Op.malloc 10 1)) :=
    ReachableOk.step _ _ ReachableOk.init (show 1 ∉ live [] by decide)
  ⟨hr,
    (C17_realloc_copy_before_release _ hr 1 20 2
      { address := 1, status := ACTIVE, size := 10 } (by decide) rfl rfl (by decide)).1⟩

/-- C19 (exact condition for `INVLDFREE`): in every state reachable through the
wrappers, `m61_removefromlist(p)` returns `INVLDFREE` if and only if `p` is NULL and
some node is `INACTIVE` or `FAILED`; hence no non-null pointer is classified
`INVLDFREE`, and once an allocation has failed or been released `m61_free(NULL)` prints
the invalid-free diagnostic (and changes nothing else). -/
theorem C19_invalid_free_iff_null (s : State) (hs : Reachable s) (p : Nat) :
    ((m61_removefromlist p s.head).1 = INVLDFREE ↔
      (p = 0 ∧ ∃ n ∈ s.head, n.status = INACTIVE ∨ n.status = FAILED)) ∧
    (p ≠ 0 → (m61_removefromlist p s.head).1 ≠ INVLDFREE) ∧
    ((∃ n ∈ s.head, n.status = INACTIVE ∨ n.status = FAILED) →
      m61_free 0 s
        = { head := s.head, trace := s.trace ++ [Event.fprintf Msg.invalidFree 0] }) := by
  have hinv := Reachable_inv s hs
  have hiff : (m61_removefromlist p s.head).1 = INVLDFREE ↔
      (p = 0 ∧ ∃ n ∈ s.head, n.status = INACTIVE ∨ n.status = FAILED) := by
    constructor
    · intro hres
      rcases m61_removefromlist_cases p s.head with h | h | ⟨i, n, hf, hn, _⟩ | ⟨i, n, _, _, h⟩
      · rw [h.2] at hres; simp [NOTINHEAP, INVLDFREE] at hres
      · rw [h.2.2] at hres; simp [NOTALLOC, INVLDFREE] at hres
      · have hmem : n ∈ s.head := List.getElem?_mem hf.1
        rcases hinv n hmem with ⟨h1, _⟩ | ⟨h1, h2⟩ | ⟨h1, h2, _⟩
        · exact absurd h1 hn
        · exact ⟨by rw [← hf.2.1, h2], n, hmem, Or.inl h1⟩
        · exact ⟨by rw [← hf.2.1, h2], n, hmem, Or.inr h1⟩
      · rw [h] at hres; simp [SUCCESS, INVLDFREE] at hres
    · rintro ⟨hp, n, hmem, hst⟩
      have hn0 : n.address = p := by
        rcases hinv n hmem with ⟨h1, _⟩ | ⟨_, h2⟩ | ⟨_, h2, _⟩
        · rcases hst with h | h
          · rw [h1] at h; exact absurd h (by decide)
          · rw [h1] at h; exact absurd h (by decide)
        · rw [h2, hp]
        · rw [h2, hp]
      rcases m61_removefromlist_cases p s.head with h | h | ⟨i, m, _, _, h⟩ | ⟨i, m, hf, hm, _⟩
      · rw [h.1] at hmem; simp at hmem
      · exact absurd hn0 (h.2.1 n hmem)
      · rw [h]
      · exfalso
        rcases hinv m (List.getElem?_mem hf.1) with ⟨_, h2, _⟩ | ⟨h1, _⟩ | ⟨h1, _⟩
        · exact h2 (by rw [hf.2.1, hp])
        · rw [hm] at h1; exact absurd h1 (by decide)
        · rw [hm] at h1; exact absurd h1 (by decide)
  refine ⟨hiff, ?_, ?_⟩
  · intro hp hres
    exact hp (hiff.1 hres).1
  · intro hex
    have hres : (m61_removefromlist 0 s.head).1 = INVLDFREE := by
      have hinv0 := Reachable_inv s hs
      obtain ⟨n, hmem, hst⟩ := hex
      have hn0 : n.address = 0 := by
        rcases hinv0 n hmem with ⟨h1, _⟩ | ⟨_, h2⟩ | ⟨_, h2, _⟩
        · rcases hst with h | h
          · rw [h1] at h; exact absurd h (by decide)
          · rw [h1] at h; exact absurd h (by decide)
        · exact h2
        · exact h2
      rcases m61_removefromlist_cases 0 s.head with h | h | ⟨i, m, _, _, h⟩ | ⟨i, m, hf, hm, _⟩
      · rw [h.1] at hmem; simp at hmem
      · exact absurd hn0 (h.2.1 n hmem)
      · rw [h]
      · exfalso
        rcases hinv0 m (List.getElem?_mem hf.1) with ⟨_, h2, _⟩ | ⟨h1, _⟩ | ⟨h1, _⟩
        · exact h2 hf.2.1
        · rw [hm] at h1; exact absurd h1 (by decide)
        · rw [hm] at h1; exact absurd h1 (by decide)
    have hlist : (m61_removefromlist 0 s.head).2 = s.head := by
      rcases m61_removefromlist_cases 0 s.head with h | h | ⟨i, m, _, _, h⟩ | ⟨i, m, _, _, h⟩
      · rw [h.2]
      · rw [h.2.2]
      · rw [h]
      · rw [h] at hres; simp [SUCCESS, INVLDFREE] at hres
    simp [m61_free, hres, hlist, free_diag, INVLDFREE, SUCCESS, NOTINHEAP, NOTALLOC]

/-- C19 witness: after a failed `m61_malloc(8)`, releasing NULL is classified
`INVLDFREE`. -/
theorem C19_invalid_free_iff_null_witness :
    Reachable (run State.init [Op.malloc 8 0]) ∧
    (m61_removefromlist 0 (run State.init [Op.malloc 8 0]).head).1 = INVLDFREE :=
  ⟨Reachable_run _ _ Reachable.init,
    ((C19_invalid_free_iff_null (run State.init [Op.malloc 8 0])
      (Reachable_run _ _ Reachable.init) 0).1).2
      ⟨rfl, { address := 0, status := FAILED, size := 8 }, by decide, Or.inr rfl⟩⟩

/-- C20 (resize when the allocation fails, the code evaluated): for every non-null
handle `h + 1` of a block of positive size `oldSize + 1` and every `sz + 1 > 0`, when
the underlying `malloc` returns NULL the call `m61_realloc(h + 1, sz + 1)` appends the
`FAILED` node and is then killed in `memcpy(NULL, h + 1, oldSize + 1)` (line 97), before
`m61_free` at line 98: it does not return, the node of `h + 1` stays `ACTIVE`, no
`free` is forwarded and `nactive` stays `1`. Only for an old block of size `0` does the
call return NULL after releasing the block. -/
theorem C20_realloc_failure_faults_in_memcpy (h oldSize sz : Nat) :
    m61_realloc (h + 1) (sz + 1) 0 (m61_malloc (oldSize + 1) (h + 1) State.init).2
      = Except.error ⟨[⟨h + 1, ACTIVE, oldSize + 1⟩, ⟨0, FAILED, sz + 1⟩],
          [Event.malloc (oldSize + 1) (h + 1), Event.malloc (sz + 1) 0,
           Event.memcpy 0 (h + 1) (oldSize + 1)]⟩ ∧
    m61_realloc 1 20 0 (m61_malloc 10 1 State.init).2
      = Except.error ⟨[⟨1, ACTIVE, 10⟩, ⟨0, FAILED, 20⟩],
          [Event.malloc 10 1, Event.malloc 20 0, Event.memcpy 0 1 10]⟩ ∧
    (m61_getstatistics (m61_malloc 10 1 State.init).2.head).nactive = 1 ∧
    (m61_getstatistics
      (realloc_state (m61_realloc 1 20 0 (m61_malloc 10 1 State.init).2)).head).nactive
      = 1 ∧
    m61_realloc 1 20 0 (m61_malloc 0 1 State.init).2
      = Except.ok (0, ⟨[⟨0, INACTIVE, 0⟩, ⟨0, FAILED, 20⟩],
          [Event.malloc 0 1, Event.malloc 20 0, Event.memcpy 0 1 0, Event.free 1]⟩) := by
  refine ⟨?_, by decide, by decide, by decide, by decide⟩
  have hs : (m61_malloc (oldSize + 1) (h + 1) State.init).2
      = ⟨[⟨h + 1, ACTIVE, oldSize + 1⟩], [Event.malloc (oldSize + 1) (h + 1)]⟩ := by
    simp [m61_malloc_eq, State.init]
  rw [hs]
  rw [m61_realloc_fault ⟨[⟨h + 1, ACTIVE, oldSize + 1⟩], [Event.malloc (oldSize + 1) (h + 1)]⟩
    (h + 1) (sz + 1) 0 0 ⟨h + 1, ACTIVE, oldSize + 1⟩ (by omega)
    ⟨rfl, rfl, fun j m hj _ => absurd hj (Nat.not_lt_zero j)⟩ (by simp [memcpy_faults])]
  simp [FAILED]

end M61
